import Mathlib

/-!
# Verification of the robo-cord-framework discovery + configuration subsystem

A shallow embedding, in Lean 4, of the naming-convention translator
(`packages/framework/src/utils/conventions.ts`), the deep-merge utility
(`packages/framework/src/utils/deepMerge.ts`), the configuration builder and
Zod-schema validation (`packages/framework/src/utils/createConfig.ts`,
`packages/framework/src/schemas/*`), the discovery service
(`packages/framework/src/services/DiscoveryService.ts`) and the command
registration table of the Discord service
(`packages/framework/src/services/DiscordService.ts`).

Modelling decisions:
* JavaScript strings are Lean `String`/`List Char`; ASCII regex classes
  (`[a-z]`, `[A-Z]`, `[0-9]`) are the ASCII predicates `Char.isLower`,
  `Char.isUpper`, `Char.isDigit`; `toLowerCase`/`toUpperCase` are modelled for
  the basic-latin range by `Char.toLower`/`Char.toUpper`.
* JavaScript values are the tree `JValue`; plain objects are association
  lists with distinct keys in insertion order; `undefined` is `JValue.undef`
  and `NaN` is `JValue.nan`.
* Thrown errors are `Except.error`; Zod validation reports a list of issues,
  each carrying a field path and a message, as `createConfig` prints them.
* `Number(x)` is modelled on the value classes the configuration code can
  produce: integers, booleans, `null`, and strings that are empty or all
  digits; fractional literals and `ToPrimitive` on objects/arrays are outside
  the model and mapped to NaN.
* A failed Zod union is one `invalid_union` issue at the member, as Zod 3
  reports it. The structured optional members no claim reads
  (`presence`, `allowedMentions`, `partials`, `ws`, `rest` of the client
  options; the record members of the logger schema) are validated
  exactly, but their issue lists are coarsened to one issue at the member
  root and their passed-through content is not recorded; the
  `new URL` acceptance test behind the streaming-activity `url` member is
  approximated by a scheme-shaped, whitespace-free string test.
* Filesystem reads and dynamic imports are modelled by an explicit
  `DiscoveryFS` record giving the directory listing (or its thrown error) and
  the per-file load result (or its thrown error).
* Process-level side effects of `createConfig` (loading `.env`, creating the
  `logs/` directory, `process.exit(1)` when `shouldExit` is set) and the
  post-validation resolution of `paths.*` to absolute paths are not modelled;
  validation itself is, and the current working directory is an explicit
  `cwd` parameter.
-/

namespace RoboCord

/-! ## Naming Convention Translator (`utils/conventions.ts`) -/

/-- Models `String.prototype.endsWith` on the underlying character lists. -/
def endsWithStr (s sfx : String) : Bool :=
  sfx.data.isSuffixOf s.data

/-- The character class `[a-z0-9]` of the first `pascalToKebab` regex. -/
def isLowerDigit (c : Char) : Bool :=
  c.isLower || c.isDigit

/-- First global regex replacement of `pascalToKebab`:
`.replace(/([a-z0-9])([A-Z])/g, "$1-$2")`. A global replacement scans left to
right and resumes after each two-character match, which this recursion mirrors
by consuming both matched characters. -/
def rep1 : List Char → List Char
  | [] => []
  | [c] => [c]
  | c1 :: c2 :: rest =>
    if isLowerDigit c1 && c2.isUpper then c1 :: '-' :: c2 :: rep1 rest
    else c1 :: rep1 (c2 :: rest)

/-- Second global regex replacement of `pascalToKebab`:
`.replace(/([A-Z])([A-Z][a-z])/g, "$1-$2")`, consuming all three matched
characters before resuming, as a JavaScript global replacement does. -/
def rep2 : List Char → List Char
  | [] => []
  | [c] => [c]
  | [c1, c2] => [c1, c2]
  | c1 :: c2 :: c3 :: rest =>
    if c1.isUpper && c2.isUpper && c3.isLower then c1 :: '-' :: c2 :: c3 :: rep2 rest
    else c1 :: rep2 (c2 :: c3 :: rest)

/-- `pascalToKebab` from `utils/conventions.ts`: the two regex replacements
followed by `toLowerCase()`. -/
def pascalToKebab (s : String) : String :=
  ⟨(rep2 (rep1 s.data)).map Char.toLower⟩

/-- `pascalToCamel` from `utils/conventions.ts`:
`str.charAt(0).toLowerCase() + str.slice(1)`. -/
def pascalToCamel (s : String) : String :=
  match s.data with
  | [] => ""
  | c :: rest => ⟨Char.toLower c :: rest⟩

/-- `camelToPascal` from `utils/conventions.ts`:
`str.charAt(0).toUpperCase() + str.slice(1)`. -/
def camelToPascal (s : String) : String :=
  match s.data with
  | [] => ""
  | c :: rest => ⟨Char.toUpper c :: rest⟩

/-- Models `String.prototype.split("-")`: `"a-b"` splits to `["a","b"]`, the
empty string splits to `[""]`, separators at the ends produce empty pieces. -/
def splitDash : List Char → List (List Char)
  | [] => [[]]
  | c :: rest =>
    if c = '-' then [] :: splitDash rest
    else
      match splitDash rest with
      | [] => [[c]]
      | w :: ws => (c :: w) :: ws

/-- One word mapped by `kebabToPascal`:
`word.charAt(0).toUpperCase() + word.slice(1)`. -/
def capitalizeWord : List Char → List Char
  | [] => []
  | c :: rest => Char.toUpper c :: rest

/-- `kebabToPascal` from `utils/conventions.ts`: split on `-`, uppercase the
first character of each piece, join with the empty string. -/
def kebabToPascal (s : String) : String :=
  ⟨((splitDash s.data).map capitalizeWord).flatten⟩

/-- `commandNameToId` from `utils/conventions.ts`. A thrown `Error` is
modelled as `Except.error` carrying the message. -/
def commandNameToId (className : String) : Except String String :=
  if ¬ endsWithStr className "Command" then
    .error ("Invalid command class name: \"" ++ className ++
      "\". Command classes must end with \"Command\".")
  else
    let nameWithoutSuffix := className.data.take (className.data.length - "Command".data.length)
    if nameWithoutSuffix.length = 0 then
      .error ("Invalid command class name: \"" ++ className ++ "\". Cannot be just \"Command\".")
    else
      .ok (pascalToKebab ⟨nameWithoutSuffix⟩)

/-- `jobNameToId` from `utils/conventions.ts`. -/
def jobNameToId (className : String) : Except String String :=
  if ¬ endsWithStr className "Job" then
    .error ("Invalid job class name: \"" ++ className ++
      "\". Job classes must end with \"Job\".")
  else
    let nameWithoutSuffix := className.data.take (className.data.length - "Job".data.length)
    if nameWithoutSuffix.length = 0 then
      .error ("Invalid job class name: \"" ++ className ++ "\". Cannot be just \"Job\".")
    else
      .ok (pascalToKebab ⟨nameWithoutSuffix⟩)

/-- `eventNameToDiscordEvent` from `utils/conventions.ts`. -/
def eventNameToDiscordEvent (className : String) : Except String String :=
  if ¬ endsWithStr className "Event" then
    .error ("Invalid event class name: \"" ++ className ++
      "\". Event classes must end with \"Event\".")
  else
    let nameWithoutSuffix := className.data.take (className.data.length - "Event".data.length)
    if nameWithoutSuffix.length = 0 then
      .error ("Invalid event class name: \"" ++ className ++ "\". Cannot be just \"Event\".")
    else
      .ok (pascalToCamel ⟨nameWithoutSuffix⟩)

/-- `entityNameToTableName` from `utils/conventions.ts`. -/
def entityNameToTableName (className : String) : Except String String :=
  if ¬ endsWithStr className "Entity" then
    .error ("Invalid entity class name: \"" ++ className ++
      "\". Entity classes must end with \"Entity\".")
  else
    let nameWithoutSuffix := className.data.take (className.data.length - "Entity".data.length)
    if nameWithoutSuffix.length = 0 then
      .error ("Invalid entity class name: \"" ++ className ++ "\". Cannot be just \"Entity\".")
    else
      .ok ⟨nameWithoutSuffix⟩

/-- The check `^[A-Z][a-zA-Z0-9]*$` used by `validateClassName`. -/
def matchesPascal : List Char → Bool
  | [] => false
  | c :: rest => c.isUpper && rest.all (fun d => d.isAlpha || d.isDigit)

/-- `validateClassName` from `utils/conventions.ts`: the name must end with
the suffix and the remainder must match `^[A-Z][a-zA-Z0-9]*$`. -/
def validateClassName (className expectedSuffix : String) : Bool :=
  if ¬ endsWithStr className expectedSuffix then false
  else matchesPascal (className.data.take (className.data.length - expectedSuffix.data.length))

/-! ### Specification-side description of `pascalToKebab` (for claim C3)

`kebabSeps` inserts `-` exactly before each uppercase letter that follows a
lowercase letter or digit, and before each uppercase letter that is preceded
by another uppercase letter and followed by a lowercase letter; `kebabSpec`
then lowercases. These definitions follow the wording of the specification,
to be compared with the regex-pass implementation above. -/

/-- Whether the head of a character list is a lowercase letter. -/
def headLower : List Char → Bool
  | c :: _ => c.isLower
  | [] => false

/-- The separator condition of the specification at one position: `c` is
uppercase, and the previous character is a lowercase letter or digit, or is an
uppercase letter while the next character is a lowercase letter. -/
def kebabBoundary (prev : Option Char) (c : Char) (rest : List Char) : Bool :=
  c.isUpper &&
    (match prev with
     | none => false
     | some p => isLowerDigit p || (p.isUpper && headLower rest))

/-- Walk the string once, inserting `-` exactly at the positions described by
`kebabBoundary` on the original neighbours. -/
def kebabSepsAux (prev : Option Char) : List Char → List Char
  | [] => []
  | c :: rest =>
    (if kebabBoundary prev c rest then ['-', c] else [c]) ++ kebabSepsAux (some c) rest

/-- Specification-side PascalCase → kebab-case: positional separator
insertion followed by lowercasing. -/
def kebabSpec (s : String) : String :=
  ⟨(kebabSepsAux none s.data).map Char.toLower⟩

/-- Intermediate form of the first regex pass: prefix-state version carrying
whether the previous character was in `[a-z0-9]`. -/
def sep1Aux (prevLD : Bool) : List Char → List Char
  | [] => []
  | c :: rest => (if prevLD && c.isUpper then ['-', c] else [c]) ++ sep1Aux (isLowerDigit c) rest

/-- Intermediate form of the second regex pass: state carries whether the
previous character was uppercase; lookahead checks the next character. -/
def sep2Aux (prevU : Bool) : List Char → List Char
  | [] => []
  | c :: rest =>
    (if prevU && c.isUpper && headLower rest then ['-', c] else [c]) ++ sep2Aux c.isUpper rest

/-- `isLowerDigit` lifted to an optional previous character. -/
def isLowerDigitOpt : Option Char → Bool
  | none => false
  | some c => isLowerDigit c

/-- `Char.isUpper` lifted to an optional previous character. -/
def isUpperOpt : Option Char → Bool
  | none => false
  | some c => c.isUpper

/-- Characters dropped by `kebabToPascal`-side reasoning: everything except
the separator. -/
def removeDashes (l : List Char) : List Char :=
  l.filter (fun c => c ≠ '-')

/-- Case-folding both sides of the round-trip comparison (claim C4). -/
def lowerStr (s : String) : String :=
  ⟨s.data.map Char.toLower⟩

/-! ## JavaScript values and the deep merge (`utils/deepMerge.ts`) -/

/-- A JavaScript runtime value as far as the configuration code observes it. -/
inductive JValue where
  | str (s : String)
  | num (n : Int)
  | nan
  | jbool (b : Bool)
  | jnull
  | undef
  | obj (fields : List (String × JValue))
  | arr (elems : List JValue)

/-- A plain JavaScript object: own enumerable properties in insertion order. -/
abbrev JObj := List (String × JValue)

/-- Property read `o[k]` on own properties. -/
def getEntry {α : Type} : List (String × α) → String → Option α
  | [], _ => none
  | (k', v) :: rest, k => if k' = k then some v else getEntry rest k

/-- Property write `o[k] = v`: replaces an existing own property in place,
otherwise appends it (JavaScript insertion-order semantics). -/
def setEntry {α : Type} : List (String × α) → String → α → List (String × α)
  | [], k, v => [(k, v)]
  | (k', v') :: rest, k, v =>
    if k' = k then (k, v) :: rest else (k', v') :: setEntry rest k v

/-- `isPlainObject` from `utils/deepMerge.ts`: non-null, of object type, with
`Object` as constructor; in this model exactly the `obj` constructor (arrays
and null are excluded, as in the source). -/
def isPlainObject : JValue → Bool
  | .obj _ => true
  | _ => false

/-- `DANGEROUS_KEYS` from `utils/deepMerge.ts`. -/
def dangerousKeys : List String := ["__proto__", "constructor", "prototype"]

/-- `deepMerge` from `utils/deepMerge.ts`: starting from a copy of `target`
(`{ ...target }`), iterate the own keys of `source` in order; skip dangerous
keys; merge recursively when both sides are plain objects; otherwise replace,
unless the source value is `undefined`. -/
def deepMerge (result : JObj) (source : JObj) : JObj :=
  match source with
  | [] => result
  | (k, sv) :: rest =>
    if k ∈ dangerousKeys then deepMerge result rest
    else
      match sv, getEntry result k with
      | .obj s, some (.obj t) => deepMerge (setEntry result k (.obj (deepMerge t s))) rest
      | .undef, _ => deepMerge result rest
      | _, _ => deepMerge (setEntry result k sv) rest
  termination_by (sizeOf source, 0)

/-- Specification-side per-key description of the merge (claim C7): the value
of `deepMerge target source` at `k` as dictated by the spec, with the
recursive merge at nested plain objects. -/
def mergedAt (target source : JObj) (k : String) : Option JValue :=
  if k ∈ dangerousKeys then getEntry target k
  else
    match getEntry source k with
    | none => getEntry target k
    | some sv =>
      match sv, getEntry target k with
      | .obj s, some (.obj t) => some (.obj (deepMerge t s))
      | .undef, _ => getEntry target k
      | _, _ => some sv

/-! ## Zod schema validation (`schemas/*`, used by `createConfig`) -/

/-- One Zod validation issue: the field path and the message, as printed by
`createConfig` on failure. -/
structure Issue where
  path : List String
  message : String
  deriving Repr, DecidableEq

/-- JavaScript truthiness, `Boolean(x)`; this is what `z.coerce.boolean()`
applies to its input. -/
def jsTruthy : JValue → Bool
  | .str s => s ≠ ""
  | .num n => n ≠ 0
  | .nan => false
  | .jbool b => b
  | .jnull => false
  | .undef => false
  | .obj _ => true
  | .arr _ => true

/-- Decimal value of a digit string. -/
def digitsVal (l : List Char) : Int :=
  l.foldl (fun acc c => acc * 10 + ((c.toNat : Int) - 48)) 0

/-- `Number(x)`, as applied by `z.coerce.number()`; `none` is NaN. Strings are
modelled on the classes the configuration exercises: empty gives 0, all-digit
strings give their decimal value, anything else NaN. -/
def jsNumber : JValue → Option Int
  | .num n => some n
  | .nan => none
  | .jbool b => some (if b then 1 else 0)
  | .jnull => some 0
  | .str s =>
    if s.data = [] then some 0
    else if s.data.all Char.isDigit then some (digitsVal s.data) else none
  | .undef => none
  | .obj _ => none
  | .arr _ => none

/-- `z.string()` on a (possibly missing) object property. -/
def zString (v : Option JValue) (path : List String) : Except (List Issue) String :=
  match v with
  | none => .error [⟨path, "Required"⟩]
  | some .undef => .error [⟨path, "Required"⟩]
  | some (.str s) => .ok s
  | some _ => .error [⟨path, "Expected string"⟩]

/-- `z.string().min(1, msg)`. -/
def zStringMin1 (v : Option JValue) (path : List String) (msg : String) :
    Except (List Issue) String :=
  match zString v path with
  | .error e => .error e
  | .ok s => if 1 ≤ s.length then .ok s else .error [⟨path, msg⟩]

/-- `z.string().default(d)`. -/
def zStringDefault (v : Option JValue) (path : List String) (d : String) :
    Except (List Issue) String :=
  match v with
  | none => .ok d
  | some .undef => .ok d
  | some (.str s) => .ok s
  | some _ => .error [⟨path, "Expected string"⟩]

/-- The port field of `DatabaseConfigSchema`:
`z.coerce.number().int().min(1).max(65535).default(5432)`. The default fires
on a missing or undefined input before coercion; otherwise `Number(x)` is
applied and range-checked. All numbers in the model are integers, so the
`.int()` step never fails separately. -/
def zPort (v : Option JValue) (path : List String) : Except (List Issue) Int :=
  match v with
  | none => .ok 5432
  | some .undef => .ok 5432
  | some x =>
    match jsNumber x with
    | none => .error [⟨path, "Expected number, received nan"⟩]
    | some n =>
      if n < 1 then .error [⟨path, "Number must be greater than or equal to 1"⟩]
      else if 65535 < n then .error [⟨path, "Number must be less than or equal to 65535"⟩]
      else .ok n

/-- `z.coerce.boolean().default(false)`: the default fires on missing or
undefined input; any other input is converted by `Boolean(x)`, which never
fails. -/
def zCoerceBoolDefault (v : Option JValue) : Bool :=
  match v with
  | none => false
  | some .undef => false
  | some x => jsTruthy x

/-- `z.boolean().default(d)` (no coercion). -/
def zBoolDefault (v : Option JValue) (path : List String) (d : Bool) :
    Except (List Issue) Bool :=
  match v with
  | none => .ok d
  | some .undef => .ok d
  | some (.jbool b) => .ok b
  | some _ => .error [⟨path, "Expected boolean"⟩]

/-- The ASCII whitespace stripped by `String.prototype.trim` in the inputs the
configuration exercises. -/
def isJsWhitespace (c : Char) : Bool :=
  c = ' ' || c = '\t' || c = '\n' || c = '\r'

/-- `String.prototype.trim`. -/
def jsTrim (s : String) : String :=
  ⟨((s.data.dropWhile isJsWhitespace).reverse.dropWhile isJsWhitespace).reverse⟩

/-- `z.string().trim().min(1, msg)` (the Discord token field). -/
def zTrimMin1 (v : Option JValue) (path : List String) (msg : String) :
    Except (List Issue) String :=
  match zString v path with
  | .error e => .error e
  | .ok s =>
    let t := jsTrim s
    if 1 ≤ t.length then .ok t else .error [⟨path, msg⟩]

/-- The snowflake pattern `^\d{17,20}$`. -/
def isSnowflake (s : String) : Bool :=
  s.data.all Char.isDigit && decide (17 ≤ s.data.length) && decide (s.data.length ≤ 20)

/-- `z.string().trim().regex(/^\d{17,20}$/, msg).optional()` (client and guild
identifiers). -/
def zSnowflakeOpt (v : Option JValue) (path : List String) (msg : String) :
    Except (List Issue) (Option String) :=
  match v with
  | none => .ok none
  | some .undef => .ok none
  | some (.str s) =>
    let t := jsTrim s
    if isSnowflake t then .ok (some t) else .error [⟨path, msg⟩]
  | some _ => .error [⟨path, "Expected string"⟩]

/-- Issues carried by a field result (empty when the field parsed). -/
def errs {α : Type} : Except (List Issue) α → List Issue
  | .error e => e
  | .ok _ => []

/-- The parsed shape of `DatabaseConfigSchema`. -/
structure DatabaseConfig where
  host : String
  port : Int
  database : String
  username : String
  password : String
  synchronize : Bool
  logging : Bool
  deriving Repr, DecidableEq

/-- Field-by-field parse of `DatabaseConfigSchema`
(`schemas/DatabaseConfigSchema.ts`): host defaults to `localhost`, the port is
coerced and range-checked, name, username and password are required non-empty
strings, and the two safety flags are `z.coerce.boolean().default(false)`.
All issues across fields are collected, as Zod does. -/
def parseDatabaseFields (o : JObj) : Except (List Issue) DatabaseConfig :=
  let hostR := zStringDefault (getEntry o "host") ["database", "host"] "localhost"
  let portR := zPort (getEntry o "port") ["database", "port"]
  let dbR := zStringMin1 (getEntry o "database") ["database", "database"]
    "Database name is required"
  let userR := zStringMin1 (getEntry o "username") ["database", "username"]
    "Database username is required"
  let passR := zStringMin1 (getEntry o "password") ["database", "password"]
    "Database password is required"
  let syncB := zCoerceBoolDefault (getEntry o "synchronize")
  let logB := zCoerceBoolDefault (getEntry o "logging")
  match hostR, portR, dbR, userR, passR with
  | .ok h, .ok p, .ok d, .ok u, .ok pw => .ok ⟨h, p, d, u, pw, syncB, logB⟩
  | _, _, _, _, _ =>
    .error (errs hostR ++ errs portR ++ errs dbR ++ errs userR ++ errs passR)

/-- `DatabaseConfigSchema` applied to the `database` property of the
configuration object. -/
def parseDatabase (v : Option JValue) : Except (List Issue) DatabaseConfig :=
  match v with
  | none => .error [⟨["database"], "Required"⟩]
  | some .undef => .error [⟨["database"], "Required"⟩]
  | some (.obj o) => parseDatabaseFields o
  | some _ => .error [⟨["database"], "Expected object"⟩]

/-- `z.number().int().min(lo).max(hi).default(d)` (the defaulted scalar
members of `DiscordClientOptionsSchema`). All numbers in the model are
integers, so `.int()` never fails separately. -/
def zIntBounded (v : Option JValue) (path : List String) (lo hi d : Int) :
    Except (List Issue) Int :=
  match v with
  | none => .ok d
  | some .undef => .ok d
  | some (.num n) =>
    if n < lo then
      .error [⟨path, "Number must be greater than or equal to " ++ toString lo⟩]
    else if hi < n then
      .error [⟨path, "Number must be less than or equal to " ++ toString hi⟩]
    else .ok n
  | some .nan => .error [⟨path, "Expected number, received nan"⟩]
  | some _ => .error [⟨path, "Expected number"⟩]

/-- Approximation of the `new URL` acceptance test behind `z.url()` on the
streaming-activity `url` member: an alphabetic-initial scheme, a colon, and
a whitespace-free remainder. No claim exercises this member. -/
def isUrlString (s : String) : Bool :=
  match s.data with
  | [] => false
  | c :: rest =>
    c.isAlpha &&
      (match rest.dropWhile
          (fun x => x.isAlpha || x.isDigit || x = '+' || x = '.' || x = '-') with
       | ':' :: t => t.all (fun x => !isJsWhitespace x)
       | _ => false)

/-- One entry of `presence.activities` in `DiscordClientOptionsSchema`: a
required string `name`, an optional integer `type` in `0..5` and an optional
URL-shaped `url`. -/
def isActivityObj : JValue → Bool
  | .obj o =>
    (match getEntry o "name" with
     | some (.str _) => true
     | _ => false)
    && (match getEntry o "type" with
        | none => true
        | some .undef => true
        | some (.num n) => decide (0 ≤ n) && decide (n ≤ 5)
        | _ => false)
    && (match getEntry o "url" with
        | none => true
        | some .undef => true
        | some (.str s) => isUrlString s
        | _ => false)
  | _ => false

/-- The `presence` member of `DiscordClientOptionsSchema`: an optional object
with an optional status enum and an optional array of activity objects. -/
def validPresence : Option JValue → Bool
  | none => true
  | some .undef => true
  | some (.obj o) =>
    (match getEntry o "status" with
     | none => true
     | some .undef => true
     | some (.str s) => ["online", "idle", "dnd", "invisible"].contains s
     | _ => false)
    && (match getEntry o "activities" with
        | none => true
        | some .undef => true
        | some (.arr es) => es.all isActivityObj
        | _ => false)
  | some _ => false

/-- The `allowedMentions` member of `DiscordClientOptionsSchema`: an optional
object with an optional array of mention-kind enums, optional arrays of
snowflake strings (`^\d{17,20}$`, no trim) and an optional boolean. -/
def validAllowedMentions : Option JValue → Bool
  | none => true
  | some .undef => true
  | some (.obj o) =>
    (match getEntry o "parse" with
     | none => true
     | some .undef => true
     | some (.arr es) => es.all (fun x => match x with
        | .str s => ["users", "roles", "everyone"].contains s
        | _ => false)
     | _ => false)
    && (match getEntry o "users" with
        | none => true
        | some .undef => true
        | some (.arr es) => es.all (fun x => match x with
          | .str s => isSnowflake s
          | _ => false)
        | _ => false)
    && (match getEntry o "roles" with
        | none => true
        | some .undef => true
        | some (.arr es) => es.all (fun x => match x with
          | .str s => isSnowflake s
          | _ => false)
        | _ => false)
    && (match getEntry o "repliedUser" with
        | none => true
        | some .undef => true
        | some (.jbool _) => true
        | _ => false)
  | some _ => false

/-- The `partials` member: `z.array(z.number().int()).optional()`. -/
def validPartials : Option JValue → Bool
  | none => true
  | some .undef => true
  | some (.arr es) => es.all (fun x => match x with | .num _ => true | _ => false)
  | some _ => false

/-- The `ws` member: an optional object with an optional boolean `compress`
and an optional record `properties`. -/
def validWs : Option JValue → Bool
  | none => true
  | some .undef => true
  | some (.obj o) =>
    (match getEntry o "compress" with
     | none => true
     | some .undef => true
     | some (.jbool _) => true
     | _ => false)
    && (match getEntry o "properties" with
        | none => true
        | some .undef => true
        | some (.obj _) => true
        | _ => false)
  | some _ => false

/-- The `rest` member: an optional object with an optional number `offset`,
an optional integer `timeout` of at least 1000 and an optional integer
`retries` in `0..10`. -/
def validRest : Option JValue → Bool
  | none => true
  | some .undef => true
  | some (.obj o) =>
    (match getEntry o "offset" with
     | none => true
     | some .undef => true
     | some (.num _) => true
     | _ => false)
    && (match getEntry o "timeout" with
        | none => true
        | some .undef => true
        | some (.num n) => decide (1000 ≤ n)
        | _ => false)
    && (match getEntry o "retries" with
        | none => true
        | some .undef => true
        | some (.num n) => decide (0 ≤ n) && decide (n ≤ 10)
        | _ => false)
  | some _ => false

/-- The validated scalar members of `DiscordClientOptionsSchema`; the
structured optional members (`intents`, `presence`, `allowedMentions`,
`partials`, `ws`, `rest`) are validated but their passed-through content is
read by no claim and is not recorded. -/
structure ClientOptionsConfig where
  closeTimeout : Int
  waitGuildTimeout : Int
  failIfNotExists : Bool
  enforceNonce : Bool
  deriving Repr, DecidableEq

/-- Field-by-field parse of `DiscordClientOptionsSchema`
(`schemas/DiscordClientOptionsSchema.ts`), collecting issues in member
declaration order. The `intents` union ends in `z.unknown()`, so it accepts
every input and contributes no check. -/
def parseClientOptionsFields (o : JObj) : Except (List Issue) ClientOptionsConfig :=
  let base : List String := ["discord", "clientOptions"]
  let presE : List Issue :=
    if validPresence (getEntry o "presence") then []
    else [⟨base ++ ["presence"], "Invalid input"⟩]
  let amE : List Issue :=
    if validAllowedMentions (getEntry o "allowedMentions") then []
    else [⟨base ++ ["allowedMentions"], "Invalid input"⟩]
  let paE : List Issue :=
    if validPartials (getEntry o "partials") then []
    else [⟨base ++ ["partials"], "Invalid input"⟩]
  let ctR := zIntBounded (getEntry o "closeTimeout") (base ++ ["closeTimeout"])
    1000 30000 5000
  let wgR := zIntBounded (getEntry o "waitGuildTimeout") (base ++ ["waitGuildTimeout"])
    1000 60000 15000
  let finR := zBoolDefault (getEntry o "failIfNotExists") (base ++ ["failIfNotExists"]) true
  let enfR := zBoolDefault (getEntry o "enforceNonce") (base ++ ["enforceNonce"]) false
  let wsE : List Issue :=
    if validWs (getEntry o "ws") then []
    else [⟨base ++ ["ws"], "Invalid input"⟩]
  let restE : List Issue :=
    if validRest (getEntry o "rest") then []
    else [⟨base ++ ["rest"], "Invalid input"⟩]
  let issues := presE ++ amE ++ paE ++ errs ctR ++ errs wgR ++ errs finR
    ++ errs enfR ++ wsE ++ restE
  match ctR, wgR, finR, enfR, issues with
  | .ok ct, .ok wg, .ok fi, .ok en, [] => .ok ⟨ct, wg, fi, en⟩
  | _, _, _, _, _ => .error issues

/-- The parsed shape of `DiscordConfigSchema`. -/
structure DiscordConfig where
  token : String
  clientId : Option String
  guildId : Option String
  clientOptions : ClientOptionsConfig
  deriving Repr, DecidableEq

/-- `DiscordClientOptionsSchema`, with its object-level
`.default({closeTimeout: 5000, waitGuildTimeout: 15000, failIfNotExists:
true, enforceNonce: false})`, applied to the `clientOptions` property. -/
def parseClientOptions (v : Option JValue) : Except (List Issue) ClientOptionsConfig :=
  match v with
  | none => .ok ⟨5000, 15000, true, false⟩
  | some .undef => .ok ⟨5000, 15000, true, false⟩
  | some (.obj o) => parseClientOptionsFields o
  | some _ => .error [⟨["discord", "clientOptions"], "Expected object"⟩]

/-- Field-by-field parse of `DiscordConfigSchema`
(`schemas/DiscordConfigSchema.ts`). -/
def parseDiscordFields (o : JObj) : Except (List Issue) DiscordConfig :=
  let tokR := zTrimMin1 (getEntry o "token") ["discord", "token"]
    "Discord bot token is required"
  let cidR := zSnowflakeOpt (getEntry o "clientId") ["discord", "clientId"]
    "Client ID must be a valid Discord snowflake"
  let gidR := zSnowflakeOpt (getEntry o "guildId") ["discord", "guildId"]
    "Guild ID must be a valid Discord snowflake"
  let optR := parseClientOptions (getEntry o "clientOptions")
  match tokR, cidR, gidR, optR with
  | .ok t, .ok c, .ok g, .ok co => .ok ⟨t, c, g, co⟩
  | _, _, _, _ => .error (errs tokR ++ errs cidR ++ errs gidR ++ errs optR)

/-- `DiscordConfigSchema` applied to the `discord` property. -/
def parseDiscord (v : Option JValue) : Except (List Issue) DiscordConfig :=
  match v with
  | none => .error [⟨["discord"], "Required"⟩]
  | some .undef => .error [⟨["discord"], "Required"⟩]
  | some (.obj o) => parseDiscordFields o
  | some _ => .error [⟨["discord"], "Expected object"⟩]

/-- The parsed shape of `PathsConfigSchema`. -/
structure PathsConfig where
  entities : String
  commands : String
  jobs : String
  events : String
  services : String
  deriving Repr, DecidableEq

/-- One field of `PathsConfigSchema`:
`z.string().min(1, msg).default(d)`. -/
def zPathField (v : Option JValue) (path : List String) (msg d : String) :
    Except (List Issue) String :=
  match v with
  | none => .ok d
  | some .undef => .ok d
  | some (.str s) => if 1 ≤ s.length then .ok s else .error [⟨path, msg⟩]
  | some _ => .error [⟨path, "Expected string"⟩]

/-- Field-by-field parse of `PathsConfigSchema`
(`schemas/PathsConfigSchema.ts`). -/
def parsePathsFields (o : JObj) : Except (List Issue) PathsConfig :=
  let entR := zPathField (getEntry o "entities") ["paths", "entities"]
    "Entities path cannot be empty" "./src/entities"
  let cmdR := zPathField (getEntry o "commands") ["paths", "commands"]
    "Commands path cannot be empty" "./src/commands"
  let jobR := zPathField (getEntry o "jobs") ["paths", "jobs"]
    "Jobs path cannot be empty" "./src/jobs"
  let evtR := zPathField (getEntry o "events") ["paths", "events"]
    "Events path cannot be empty" "./src/events"
  let srvR := zPathField (getEntry o "services") ["paths", "services"]
    "Services path cannot be empty" "./src/services"
  match entR, cmdR, jobR, evtR, srvR with
  | .ok a, .ok b, .ok c, .ok d, .ok e => .ok ⟨a, b, c, d, e⟩
  | _, _, _, _, _ =>
    .error (errs entR ++ errs cmdR ++ errs jobR ++ errs evtR ++ errs srvR)

/-- `PathsConfigSchema` applied to the `paths` property. -/
def parsePaths (v : Option JValue) : Except (List Issue) PathsConfig :=
  match v with
  | none => .error [⟨["paths"], "Required"⟩]
  | some .undef => .error [⟨["paths"], "Required"⟩]
  | some (.obj o) => parsePathsFields o
  | some _ => .error [⟨["paths"], "Expected object"⟩]

/-- `z.string().optional()`. -/
def zOptString (v : Option JValue) (path : List String) :
    Except (List Issue) (Option String) :=
  match v with
  | none => .ok none
  | some .undef => .ok none
  | some (.str s) => .ok (some s)
  | some _ => .error [⟨path, "Expected string"⟩]

/-- `z.boolean().optional()`. -/
def zOptBool (v : Option JValue) (path : List String) :
    Except (List Issue) (Option Bool) :=
  match v with
  | none => .ok none
  | some .undef => .ok none
  | some (.jbool b) => .ok (some b)
  | some _ => .error [⟨path, "Expected boolean"⟩]

/-- `z.record(z.string(), z.unknown()).optional()`: a missing or undefined
member passes, any plain object passes (every value satisfies `z.unknown()`),
anything else is rejected. -/
def zOptRecord (v : Option JValue) (path : List String) : Except (List Issue) Unit :=
  match v with
  | none => .ok ()
  | some .undef => .ok ()
  | some (.obj _) => .ok ()
  | some _ => .error [⟨path, "Expected object"⟩]

/-- The parsed shape of one `PinoTransportSchema` object: a required string
`target` and an optional string `level`; its optional `options` record is
validated but carries only unchecked values, which no claim reads. -/
structure PinoTransport where
  target : String
  level : Option String
  deriving Repr, DecidableEq

/-- `PinoTransportSchema` (`schemas/LoggerOptionsSchema.ts`) applied to one
candidate object. -/
def parsePinoTransport (o : JObj) (path : List String) :
    Except (List Issue) PinoTransport :=
  let tgtR := zString (getEntry o "target") (path ++ ["target"])
  let lvlR := zOptString (getEntry o "level") (path ++ ["level"])
  let optR := zOptRecord (getEntry o "options") (path ++ ["options"])
  match tgtR, lvlR, optR with
  | .ok t, .ok l, .ok _ => .ok ⟨t, l⟩
  | _, _, _ => .error (errs tgtR ++ errs lvlR ++ errs optR)

/-- The array branch of the `transport` union: every element must parse as a
`PinoTransportSchema` object. -/
def parseTransportArray : List JValue → Option (List PinoTransport)
  | [] => some []
  | .obj o :: rest =>
    match parsePinoTransport o ["logger", "transport"], parseTransportArray rest with
    | .ok t, some ts => some (t :: ts)
    | _, _ => none
  | _ :: _ => none

/-- The `transport` member of `LoggerOptionsSchema`:
`z.union([PinoTransportSchema, z.array(PinoTransportSchema)]).optional()`, a
single transport object or an array of them. An input on which both union
branches fail yields one `invalid_union` issue. -/
def parseTransport (v : Option JValue) :
    Except (List Issue) (Option (PinoTransport ⊕ List PinoTransport)) :=
  match v with
  | none => .ok none
  | some .undef => .ok none
  | some (.obj o) =>
    match parsePinoTransport o ["logger", "transport"] with
    | .ok t => .ok (some (.inl t))
    | .error _ => .error [⟨["logger", "transport"], "Invalid input"⟩]
  | some (.arr es) =>
    match parseTransportArray es with
    | some ts => .ok (some (.inr ts))
    | none => .error [⟨["logger", "transport"], "Invalid input"⟩]
  | some _ => .error [⟨["logger", "transport"], "Invalid input"⟩]

/-- The `destination` member of `LoggerOptionsSchema`:
`z.union([z.string(), z.number()]).optional()`. -/
def zDestination (v : Option JValue) : Except (List Issue) (Option (String ⊕ Int)) :=
  match v with
  | none => .ok none
  | some .undef => .ok none
  | some (.str s) => .ok (some (.inl s))
  | some (.num n) => .ok (some (.inr n))
  | some _ => .error [⟨["logger", "destination"], "Invalid input"⟩]

/-- The `redact` member of `LoggerOptionsSchema`:
`z.union([z.array(z.string()), z.record(z.string(), z.unknown())]).optional()`;
the accepted content is read by no claim and is not recorded. -/
def zRedact (v : Option JValue) : Except (List Issue) Unit :=
  match v with
  | none => .ok ()
  | some .undef => .ok ()
  | some (.arr es) =>
    if es.all (fun x => match x with | .str _ => true | _ => false) then .ok ()
    else .error [⟨["logger", "redact"], "Invalid input"⟩]
  | some (.obj _) => .ok ()
  | some _ => .error [⟨["logger", "redact"], "Invalid input"⟩]

/-- The parsed shape of `LoggerOptionsSchema`; the validated `formatters`,
`serializers` and `redact` members carry only unchecked values, which no
claim reads, and are not recorded. -/
structure LoggerConfig where
  level : Option String
  name : Option String
  enabled : Option Bool
  destination : Option (String ⊕ Int)
  transport : Option (PinoTransport ⊕ List PinoTransport)
  deriving Repr, DecidableEq

/-- Field-by-field parse of `LoggerOptionsSchema`
(`schemas/LoggerOptionsSchema.ts`), collecting issues across members in
declaration order; unknown members are stripped, as Zod does by default. -/
def parseLoggerFields (o : JObj) : Except (List Issue) LoggerConfig :=
  let lvlR := zOptString (getEntry o "level") ["logger", "level"]
  let namR := zOptString (getEntry o "name") ["logger", "name"]
  let enaR := zOptBool (getEntry o "enabled") ["logger", "enabled"]
  let dstR := zDestination (getEntry o "destination")
  let trnR := parseTransport (getEntry o "transport")
  let fmtR := zOptRecord (getEntry o "formatters") ["logger", "formatters"]
  let serR := zOptRecord (getEntry o "serializers") ["logger", "serializers"]
  let redR := zRedact (getEntry o "redact")
  match lvlR, namR, enaR, dstR, trnR, fmtR, serR, redR with
  | .ok l, .ok n, .ok e, .ok d, .ok t, .ok _, .ok _, .ok _ => .ok ⟨l, n, e, d, t⟩
  | _, _, _, _, _, _, _, _ =>
    .error (errs lvlR ++ errs namR ++ errs enaR ++ errs dstR ++ errs trnR
      ++ errs fmtR ++ errs serR ++ errs redR)

/-- `LoggerOptionsSchema.default({})` applied to the `logger` property. -/
def parseLogger (v : Option JValue) : Except (List Issue) LoggerConfig :=
  match v with
  | none => .ok ⟨none, none, none, none, none⟩
  | some .undef => .ok ⟨none, none, none, none, none⟩
  | some (.obj o) => parseLoggerFields o
  | some _ => .error [⟨["logger"], "Expected object"⟩]

/-- The parsed shape of `BaseConfigSchema`. -/
structure BaseConfig where
  isDevelopment : Bool
  discord : DiscordConfig
  database : DatabaseConfig
  paths : PathsConfig
  logger : LoggerConfig
  deriving Repr, DecidableEq

/-- Structural parse of `BaseConfigSchema` (`schemas/BaseConfigSchema.ts`):
`isDevelopment: z.boolean().default(true)` plus the four composed section
schemas, collecting all issues. -/
def parseBaseConfig (o : JObj) : Except (List Issue) BaseConfig :=
  let devR := zBoolDefault (getEntry o "isDevelopment") ["isDevelopment"] true
  let discR := parseDiscord (getEntry o "discord")
  let dbR := parseDatabase (getEntry o "database")
  let pathsR := parsePaths (getEntry o "paths")
  let logR := parseLogger (getEntry o "logger")
  match devR, discR, dbR, pathsR, logR with
  | .ok dev, .ok di, .ok db, .ok pa, .ok lo => .ok ⟨dev, di, db, pa, lo⟩
  | _, _, _, _, _ =>
    .error (errs devR ++ errs discR ++ errs dbR ++ errs pathsR ++ errs logR)

/-- Modelled from the spec: the cross-field production-safety rule. The rule
itself is not present under `src/` (only its test,
`tests/schema-improvements.test.ts`, which expects the message used here);
per the spec it rejects configurations whose development-mode flag is false
while the destructive-schema-sync flag is true, attaching the violation to the
sync-flag field. -/
def productionSafetyIssues (cfg : BaseConfig) : List Issue :=
  if cfg.isDevelopment = false ∧ cfg.database.synchronize = true then
    [⟨["database", "synchronize"],
      "Database synchronization must be disabled in production environments"⟩]
  else []

/-- Full validation of a configuration object: the structural parse followed
by the (spec-modelled) cross-field refinement, which runs only when the
structural parse succeeded, as Zod refinements do. -/
def validateBaseConfig (o : JObj) : Except (List Issue) BaseConfig :=
  match parseBaseConfig o with
  | .error issues => .error issues
  | .ok cfg =>
    match productionSafetyIssues cfg with
    | [] => .ok cfg
    | issues => .error issues

/-! ## Building the pre-validation object (`utils/createConfig.ts`) -/

/-- The process environment variables `createConfig` reads. `none` is an
unset variable. -/
structure Env where
  NODE_ENV : Option String
  DISCORD_TOKEN : Option String
  DISCORD_CLIENT_ID : Option String
  DISCORD_GUILD_ID : Option String
  DB_HOST : Option String
  DB_PORT : Option String
  DB_DATABASE : Option String
  DB_USERNAME : Option String
  DB_PASSWORD : Option String
  DB_SYNCHRONIZE : Option String
  DB_LOGGING : Option String

/-- One conditional spread `...(process.env.X && { k: f(X) })`: the property
is present only when the variable is set and non-empty (JavaScript
truthiness of strings). -/
def envEntry (v : Option String) (k : String) (f : String → JValue) : JObj :=
  match v with
  | some s => if s = "" then [] else [(k, f s)]
  | none => []

/-- `parseInt(s, 10)`: the longest digit prefix, NaN when there is none
(leading whitespace and signs are outside the model). -/
def jsParseIntVal (s : String) : JValue :=
  match s.data.takeWhile Char.isDigit with
  | [] => .nan
  | ds => .num (digitsVal ds)

/-- The value returned by `createLoggerDefaults` (its `logs/`-directory
side effect is not modelled): pino-pretty console options in development,
JSON file logging in production. -/
def createLoggerDefaultsVal (cwd : String) (isDev : Bool) : JValue :=
  let logFile := cwd ++ "/logs/" ++ (if isDev then "development.log" else "production.log")
  if isDev then
    .obj [("level", .str "debug"),
      ("transport", .obj [("target", .str "pino-pretty"),
        ("options", .obj [("colorize", .jbool true), ("translateTime", .str "HH:MM:ss Z"),
          ("ignore", .str "pid,hostname"), ("destination", .str logFile)])])]
  else
    .obj [("level", .str "info"), ("destination", .str logFile)]

/-- The conditionally spread `discord` object literal of `createConfig`. -/
def discordSection (env : Env) : JObj :=
  envEntry env.DISCORD_TOKEN "token" .str
    ++ envEntry env.DISCORD_CLIENT_ID "clientId" .str
    ++ envEntry env.DISCORD_GUILD_ID "guildId" .str

/-- The conditionally spread `database` object literal of `createConfig`:
`DB_PORT` goes through `parseInt`, the safety flags through
`=== "true"`. -/
def databaseSection (env : Env) : JObj :=
  envEntry env.DB_HOST "host" .str
    ++ (envEntry env.DB_PORT "port" jsParseIntVal
    ++ (envEntry env.DB_DATABASE "database" .str
    ++ (envEntry env.DB_USERNAME "username" .str
    ++ (envEntry env.DB_PASSWORD "password" .str
    ++ (envEntry env.DB_SYNCHRONIZE "synchronize" (fun s => .jbool (decide (s = "true")))
    ++ envEntry env.DB_LOGGING "logging" (fun s => .jbool (decide (s = "true"))))))))

/-- The `baseConfig` object literal of `createConfig`
(`utils/createConfig.ts`): `isDevelopment` from `NODE_ENV !== "production"`,
the conditionally spread `discord` and `database` sections, an empty `paths`
object, and the logger defaults. -/
def buildBaseConfig (env : Env) (cwd : String) : JObj :=
  let isDev : Bool := decide (env.NODE_ENV ≠ some "production")
  [("isDevelopment", .jbool isDev),
   ("discord", .obj (discordSection env)),
   ("database", .obj (databaseSection env)),
   ("paths", .obj []),
   ("logger", createLoggerDefaultsVal cwd isDev)]

/-- `const mergedConfig = overrides ? deepMerge(baseConfig, overrides)
: baseConfig`. -/
def mergedConfig (env : Env) (cwd : String) (overrides : Option JObj) : JObj :=
  match overrides with
  | some o => deepMerge (buildBaseConfig env cwd) o
  | none => buildBaseConfig env cwd

/-- The validating core of `createConfig`: build the base object from the
environment, deep-merge the caller overrides, validate. A validation failure
surfaces as `Except.error` (as with `shouldExit: false`; the `process.exit(1)`
default and the path-resolution step are outside the model). -/
def createConfig (env : Env) (cwd : String) (overrides : Option JObj) :
    Except (List Issue) BaseConfig :=
  validateBaseConfig (mergedConfig env cwd overrides)

/-- The raw (pre-validation) value of field `fld` of section `sec` of a
configuration object. -/
def rawFieldAt (o : JObj) (sec fld : String) : Option JValue :=
  match getEntry o sec with
  | some (.obj s) => getEntry s fld
  | _ => none

/-- The overrides argument does not supply `database.port`: it is absent, or
an object (with distinct keys) that lacks the `database` section or whose
`database` section object (with distinct keys) lacks `port`. -/
def noPortOverride : Option JObj → Prop
  | none => True
  | some ov => (ov.map Prod.fst).Nodup ∧
    (getEntry ov "database" = none ∨
      ∃ d, getEntry ov "database" = some (.obj d) ∧ (d.map Prod.fst).Nodup ∧
        getEntry d "port" = none)

/-! ## Discovery (`services/DiscoveryService.ts`) -/

/-- A named export of a loaded module, as the validity predicates observe it:
either a function (a class constructor) with its name, the presence of a
`prototype` object, and the constructors met while walking its prototype
chain upward, or any non-function export. Distinct classes are assumed to
have distinct constructor names, so reference identity on constructors is
modelled by name equality. -/
inductive ExportedItem where
  | func (name : String) (hasPrototype : Bool) (protoChainCtors : List String)
  | plain
  deriving Repr, DecidableEq

/-- The `while (currentProto)` loop of `isValidCommand`/`isValidEvent`:
walk the prototype chain and compare each constructor against the base
class. -/
def walkChainReaches (base : String) : List String → Bool
  | [] => false
  | c :: rest => c == base || walkChainReaches base rest

/-- `DiscoveryService.isValidCommand`: a function with a prototype, named with
the `Command` suffix, whose prototype chain reaches `BaseSlashCommand`. -/
def isValidCommand : ExportedItem → Bool
  | .func nm hasProto chain =>
    hasProto && endsWithStr nm "Command" && walkChainReaches "BaseSlashCommand" chain
  | .plain => false

/-- `DiscoveryService.isValidEvent`: a function with a prototype, named with
the `Event` suffix, whose prototype chain reaches `BaseEventHandler`. -/
def isValidEvent : ExportedItem → Bool
  | .func nm hasProto chain =>
    hasProto && endsWithStr nm "Event" && walkChainReaches "BaseEventHandler" chain
  | .plain => false

/-- One entry returned by `readdirSync(path, { withFileTypes: true })`. -/
structure DirEntry where
  name : String
  isFile : Bool
  deriving Repr, DecidableEq

/-- The filesystem and module loader a discovery pass runs against:
the directory listing (or the error it throws) and, per file path, the named
exports of the dynamically imported module (or the error the import
throws). -/
structure DiscoveryFS where
  listing : Except String (List DirEntry)
  load : String → Except String (List ExportedItem)

/-- `path.join(dir, name)` for the flat, relative-free names discovery
joins. -/
def joinPath (dir nm : String) : String := dir ++ "/" ++ nm

/-- The filename pattern `/Command\.(ts|js)$/`. -/
def commandFileFilter (f : String) : Bool :=
  endsWithStr f "Command.ts" || endsWithStr f "Command.js"

/-- The filename pattern `/Event\.(ts|js)$/`. -/
def eventFileFilter (f : String) : Bool :=
  endsWithStr f "Event.ts" || endsWithStr f "Event.js"

/-- `DiscoveryService.getFilesInDirectory`: list the directory, keep plain
files, join with the directory path, filter by the pattern; a thrown
`readdirSync` error is caught, logged, and turned into an empty list. -/
def getFilesInDirectory (listing : Except String (List DirEntry)) (path : String)
    (filePat : String → Bool) : List String :=
  match listing with
  | .error _ => []
  | .ok entries =>
    ((entries.filter (fun e => e.isFile)).map (fun e => joinPath path e.name)).filter filePat

/-- `DiscoveryService.discoverCommands`: for each matching file, import it;
a load failure is caught, logged as a warning, and the file skipped; the
valid command exports of each successfully loaded file are appended in
order. -/
def discoverCommands (fs : DiscoveryFS) (commandsPath : String) : List ExportedItem :=
  (getFilesInDirectory fs.listing commandsPath commandFileFilter).foldl
    (fun acc file =>
      match fs.load file with
      | .error _ => acc
      | .ok exports => acc ++ exports.filter isValidCommand) []

/-- `DiscoveryService.discoverEvents`, analogous to `discoverCommands`. -/
def discoverEvents (fs : DiscoveryFS) (eventsPath : String) : List ExportedItem :=
  (getFilesInDirectory fs.listing eventsPath eventFileFilter).foldl
    (fun acc file =>
      match fs.load file with
      | .error _ => acc
      | .ok exports => acc ++ exports.filter isValidEvent) []

/-! ## Command registration (`services/DiscordService.ts`) -/

/-- A discovered command class as `registerCommands` consumes it: the class
name, the optional explicit `name` field, the mandatory description, and an
identity for the instance the registration loop constructs from it. -/
structure CommandDescriptor where
  className : String
  name : Option String
  description : String
  instId : Nat
  deriving Repr, DecidableEq

/-- `BaseSlashCommand.commandName`: the explicit `name` if present, else the
identifier auto-derived from the class name (which throws on a
non-conforming class name). -/
def effectiveCommandName (d : CommandDescriptor) : Except String String :=
  match d.name with
  | some n => .ok n
  | none => commandNameToId d.className

/-- `DiscordService.registerCommands`: instantiate each descriptor, build its
wire representation, and store the instance in the `commandInstances` map
keyed by the effective name (`Map.set` replaces silently); a per-item failure
(here: a non-conforming class name) is caught, logged, and the item
skipped. -/
def registerCommands (commands : List CommandDescriptor) :
    List (String × CommandDescriptor) :=
  commands.foldl
    (fun table d =>
      match effectiveCommandName d with
      | .error _ => table
      | .ok n => setEntry table n d)
    []

/-- The lookup `executeSlashCommand` performs on an inbound interaction:
`commandInstances.get(interaction.commandName)`. -/
def routeInbound (table : List (String × CommandDescriptor)) (commandName : String) :
    Option CommandDescriptor :=
  getEntry table commandName

/-- Specification-side description for claim C10: the last descriptor in the
list whose effective name is `n` (none if no descriptor names `n`). -/
def lastRegisteredWith (n : String) : List CommandDescriptor → Option CommandDescriptor
  | [] => none
  | d :: rest =>
    match lastRegisteredWith n rest with
    | some r => some r
    | none =>
      match effectiveCommandName d with
      | .ok m => if m = n then some d else none
      | .error _ => none

/-! ## Helper lemmas: character classes -/

theorem isUpper_toNat {c : Char} : c.isUpper = true ↔ 65 ≤ c.toNat ∧ c.toNat ≤ 90 := by
  unfold Char.isUpper
  simp only [Bool.and_eq_true, decide_eq_true_eq, ge_iff_le]
  exact Iff.rfl

theorem isLower_toNat {c : Char} : c.isLower = true ↔ 97 ≤ c.toNat ∧ c.toNat ≤ 122 := by
  unfold Char.isLower
  simp only [Bool.and_eq_true, decide_eq_true_eq, ge_iff_le]
  exact Iff.rfl

theorem isDigit_toNat {c : Char} : c.isDigit = true ↔ 48 ≤ c.toNat ∧ c.toNat ≤ 57 := by
  unfold Char.isDigit
  simp only [Bool.and_eq_true, decide_eq_true_eq, ge_iff_le]
  exact Iff.rfl

theorem upper_not_lowerDigit {c : Char} (h : c.isUpper = true) : isLowerDigit c = false := by
  rw [isUpper_toNat] at h
  unfold isLowerDigit
  rw [Bool.or_eq_false_iff]
  constructor
  · rw [← Bool.not_eq_true, isLower_toNat]
    omega
  · rw [← Bool.not_eq_true, isDigit_toNat]
    omega

theorem upper_not_lower {c : Char} (h : c.isUpper = true) : c.isLower = false := by
  rw [isUpper_toNat] at h
  rw [← Bool.not_eq_true, isLower_toNat]
  omega

theorem lower_not_upper {c : Char} (h : c.isLower = true) : c.isUpper = false := by
  rw [isLower_toNat] at h
  rw [← Bool.not_eq_true, isUpper_toNat]
  omega

theorem toNat_ofNat_valid {n : Nat} (h : n.isValidChar) : (Char.ofNat n).toNat = n := by
  rw [Char.ofNat, dif_pos h]
  rfl

theorem toLower_toUpper (c : Char) : c.toUpper.toLower = c.toLower := by
  unfold Char.toUpper Char.toLower
  by_cases h : c.toNat ≥ 97 ∧ c.toNat ≤ 122
  · have hval : (c.toNat - 32).isValidChar := by
      left
      omega
    have ht : (Char.ofNat (c.toNat - 32)).toNat = c.toNat - 32 := toNat_ofNat_valid hval
    rw [if_pos h, ht, if_pos (show c.toNat - 32 ≥ 65 ∧ c.toNat - 32 ≤ 90 by omega),
      if_neg (show ¬(c.toNat ≥ 65 ∧ c.toNat ≤ 90) by omega),
      show c.toNat - 32 + 32 = c.toNat by omega, Char.ofNat_toNat]
  · rw [if_neg h]

theorem toLower_toLower (c : Char) : c.toLower.toLower = c.toLower := by
  unfold Char.toLower
  by_cases h : c.toNat ≥ 65 ∧ c.toNat ≤ 90
  · have hval : (c.toNat + 32).isValidChar := by
      left
      omega
    have ht : (Char.ofNat (c.toNat + 32)).toNat = c.toNat + 32 := toNat_ofNat_valid hval
    rw [if_pos h, ht, if_neg (show ¬(c.toNat + 32 ≥ 65 ∧ c.toNat + 32 ≤ 90) by omega)]
  · rw [if_neg h, if_neg h]

theorem toLower_eq_dash {c : Char} : c.toLower = '-' ↔ c = '-' := by
  constructor
  · intro h
    unfold Char.toLower at h
    by_cases hc : c.toNat ≥ 65 ∧ c.toNat ≤ 90
    · exfalso
      rw [if_pos hc] at h
      have hn := congrArg Char.toNat h
      rw [toNat_ofNat_valid (by left; omega)] at hn
      have hd : ('-').toNat = 45 := by decide
      omega
    · rwa [if_neg hc] at h
  · intro h
    subst h
    decide

/-! ## Helper lemmas: the two regex passes equal the positional description -/

theorem rep1_eq_sep1 (l : List Char) : rep1 l = sep1Aux false l := by
  induction l using rep1.induct with
  | case1 => rfl
  | case2 c => simp [rep1, sep1Aux]
  | case3 c1 c2 rest hc ih =>
    rw [rep1, if_pos hc, sep1Aux, sep1Aux]
    simp only [Bool.and_eq_true] at hc
    rw [hc.1, if_neg (by simp), if_pos (by simp [hc.2]), upper_not_lowerDigit hc.2, ih]
    simp
  | case4 c1 c2 rest hc ih =>
    rw [rep1, if_neg hc, sep1Aux, if_neg (by simp), ih]
    simp only [List.singleton_append, List.cons.injEq, true_and]
    rw [sep1Aux, sep1Aux]
    have hf : (isLowerDigit c1 && c2.isUpper) = false := by
      simpa using hc
    rw [hf]
    simp

theorem rep2_eq_sep2 (l : List Char) : rep2 l = sep2Aux false l := by
  induction l using rep2.induct with
  | case1 => rfl
  | case2 c => simp [rep2, sep2Aux]
  | case3 c1 c2 => simp [rep2, sep2Aux, headLower]
  | case4 c1 c2 c3 rest hc ih =>
    have hc2 := hc
    simp only [Bool.and_eq_true] at hc2
    obtain ⟨⟨h1, h2⟩, h3⟩ := hc2
    rw [rep2, if_pos hc]
    rw [sep2Aux, if_neg (by simp), sep2Aux, sep2Aux]
    rw [h1, h2, lower_not_upper h3, ih]
    simp [headLower, h3]
  | case5 c1 c2 c3 rest hc ih =>
    rw [rep2, if_neg hc]
    conv_rhs => rw [sep2Aux]
    rw [if_neg (by simp)]
    have key : sep2Aux c1.isUpper (c2 :: c3 :: rest) = sep2Aux false (c2 :: c3 :: rest) := by
      conv_lhs => rw [sep2Aux]
      conv_rhs => rw [sep2Aux]
      have hf : (c1.isUpper && c2.isUpper && headLower (c3 :: rest)) = false := by
        simpa [headLower] using hc
      rw [hf]
      simp
    rw [key, ← ih]
    simp

theorem headLower_sep1 (b : Bool) (l : List Char) : headLower (sep1Aux b l) = headLower l := by
  cases l with
  | nil => rfl
  | cons c r =>
    rw [sep1Aux]
    by_cases h : (b && c.isUpper) = true
    · rw [if_pos h]
      simp only [Bool.and_eq_true] at h
      simp [headLower, upper_not_lower h.2]
    · rw [if_neg h]
      simp [headLower]

theorem sep2_sep1_eq_kebabSeps (l : List Char) : ∀ prev : Option Char,
    sep2Aux (isUpperOpt prev) (sep1Aux (isLowerDigitOpt prev) l) = kebabSepsAux prev l := by
  induction l with
  | nil =>
    intro prev
    rfl
  | cons c rest ih =>
    intro prev
    rw [sep1Aux, kebabSepsAux]
    by_cases hA : (isLowerDigitOpt prev && c.isUpper) = true
    · rw [if_pos hA]
      simp only [Bool.and_eq_true] at hA
      obtain ⟨hLD, hU⟩ := hA
      have hUopt : isUpperOpt prev = false := by
        cases prev with
        | none => rfl
        | some p =>
          simp only [isLowerDigitOpt] at hLD
          simp only [isUpperOpt]
          cases hup : p.isUpper
          · rfl
          · rw [upper_not_lowerDigit hup] at hLD
            exact absurd hLD (by simp)
      have hB : kebabBoundary prev c rest = true := by
        cases prev with
        | none => simp [isLowerDigitOpt] at hLD
        | some p =>
          simp only [isLowerDigitOpt] at hLD
          simp [kebabBoundary, hU, hLD]
      rw [hUopt, hB, if_pos rfl]
      simp only [List.cons_append, List.nil_append]
      rw [sep2Aux, if_neg (by simp), sep2Aux,
        if_neg (by simp [(by decide : ('-').isUpper = false)])]
      have hrec := ih (some c)
      simp only [isUpperOpt, isLowerDigitOpt] at hrec
      rw [hrec]
      simp
    · rw [if_neg hA]
      have hA2 : (isLowerDigitOpt prev && c.isUpper) = false := by simpa using hA
      simp only [List.cons_append, List.nil_append]
      rw [sep2Aux]
      have hcond : (isUpperOpt prev && c.isUpper && headLower (sep1Aux (isLowerDigit c) rest))
          = kebabBoundary prev c rest := by
        rw [headLower_sep1]
        cases prev with
        | none => simp [isUpperOpt, kebabBoundary]
        | some p =>
          cases hu : c.isUpper with
          | false => simp [isUpperOpt, kebabBoundary, hu]
          | true =>
            cases hld : isLowerDigit p with
            | true =>
              exfalso
              simp only [isLowerDigitOpt] at hA2
              rw [hld, hu] at hA2
              simp at hA2
            | false => simp [isUpperOpt, kebabBoundary, hu, hld]
      rw [hcond]
      have hrec := ih (some c)
      simp only [isUpperOpt, isLowerDigitOpt] at hrec
      rw [hrec]

/-- C3: for every input string, `pascalToKebab` inserts a separator exactly
before each uppercase letter that follows a lowercase letter or digit and
before each uppercase letter that is followed by a lowercase letter while
preceded by another uppercase letter, then lowercases the whole result
(`kebabSpec` is that positional description); in particular the three acronym
and digit boundary examples hold. -/
theorem c3_pascalToKebab_boundary_spec :
    (∀ s : String, pascalToKebab s = kebabSpec s)
    ∧ pascalToKebab "HTMLParser" = "html-parser"
    ∧ pascalToKebab "API2Response" = "api2-response"
    ∧ pascalToKebab "XMLHttpRequest" = "xml-http-request" := by
  refine ⟨?_, by decide, by decide, by decide⟩
  intro s
  unfold pascalToKebab kebabSpec
  rw [rep1_eq_sep1, rep2_eq_sep2]
  have h := sep2_sep1_eq_kebabSeps s.data none
  simp only [isUpperOpt, isLowerDigitOpt] at h
  rw [h]

/-! ## Helper lemmas: round-trip (claim C4) and failure shape (claim C5) -/

theorem lowerDigit_ne_dash {c : Char} (h : isLowerDigit c = true) : c ≠ '-' := by
  intro he
  subst he
  simp [isLowerDigit] at h

theorem upper_ne_dash {c : Char} (h : c.isUpper = true) : c ≠ '-' := by
  intro he
  subst he
  simp at h

theorem lower_ne_dash {c : Char} (h : c.isLower = true) : c ≠ '-' := by
  intro he
  subst he
  simp at h

theorem removeDashes_rep1 (l : List Char) : removeDashes (rep1 l) = removeDashes l := by
  induction l using rep1.induct with
  | case1 => rfl
  | case2 c => rfl
  | case3 c1 c2 rest hc ih =>
    have hc2 := hc
    simp only [Bool.and_eq_true] at hc2
    obtain ⟨h1, h2⟩ := hc2
    rw [rep1, if_pos hc]
    unfold removeDashes at *
    simp [List.filter_cons, lowerDigit_ne_dash h1, upper_ne_dash h2]
    simpa using ih
  | case4 c1 c2 rest hc ih =>
    rw [rep1, if_neg hc]
    unfold removeDashes at *
    rw [List.filter_cons, List.filter_cons, ih]

theorem removeDashes_rep2 (l : List Char) : removeDashes (rep2 l) = removeDashes l := by
  induction l using rep2.induct with
  | case1 => rfl
  | case2 c => rfl
  | case3 c1 c2 => rfl
  | case4 c1 c2 c3 rest hc ih =>
    have hc2 := hc
    simp only [Bool.and_eq_true] at hc2
    obtain ⟨⟨h1, h2⟩, h3⟩ := hc2
    rw [rep2, if_pos hc]
    unfold removeDashes at *
    simp [List.filter_cons, upper_ne_dash h1, upper_ne_dash h2, lower_ne_dash h3]
    simpa using ih
  | case5 c1 c2 c3 rest hc ih =>
    rw [rep2, if_neg hc]
    unfold removeDashes at *
    rw [List.filter_cons, List.filter_cons, ih]

theorem splitDash_ne_nil (l : List Char) : splitDash l ≠ [] := by
  cases l with
  | nil => simp [splitDash]
  | cons c rest =>
    rw [splitDash.eq_def]
    by_cases h : c = '-'
    · simp [h]
    · simp only [if_neg h]
      cases splitDash rest <;> simp

theorem flatten_splitDash (l : List Char) : (splitDash l).flatten = removeDashes l := by
  induction l with
  | nil => rfl
  | cons c rest ih =>
    rw [splitDash]
    by_cases h : c = '-'
    · subst h
      simp [List.flatten_cons, ih, removeDashes, List.filter_cons]
    · rw [if_neg h]
      rcases hs : splitDash rest with _ | ⟨w, ws⟩
      · exact absurd hs (splitDash_ne_nil rest)
      · have hthis : w ++ ws.flatten = removeDashes rest := by
          have h2 := ih
          rw [hs] at h2
          simpa using h2
        unfold removeDashes
        rw [List.filter_cons, if_pos (by simp [h])]
        simp only [List.flatten_cons, List.cons_append]
        rw [hthis]
        rfl

theorem map_toLower_capitalizeWord (w : List Char) :
    (capitalizeWord w).map Char.toLower = w.map Char.toLower := by
  cases w with
  | nil => rfl
  | cons c rest => simp [capitalizeWord, toLower_toUpper]

theorem map_toLower_flatten_capitalize (ws : List (List Char)) :
    ((ws.map capitalizeWord).flatten).map Char.toLower = (ws.flatten).map Char.toLower := by
  rw [List.map_flatten, List.map_flatten, List.map_map]
  congr 1
  exact List.map_congr_left (fun w _ => map_toLower_capitalizeWord w)

theorem removeDashes_map_toLower (l : List Char) :
    removeDashes (l.map Char.toLower) = (removeDashes l).map Char.toLower := by
  unfold removeDashes
  rw [List.filter_map]
  congr 1
  apply List.filter_congr
  intro c _
  simp [Function.comp, toLower_eq_dash]

theorem alnum_ne_dash {c : Char} (h : (c.isAlpha || c.isDigit) = true) : c ≠ '-' := by
  intro he
  subst he
  simp [Char.isAlpha] at h

theorem matchesPascal_no_dash {l : List Char} (h : matchesPascal l = true) :
    removeDashes l = l := by
  unfold removeDashes
  rw [List.filter_eq_self]
  cases l with
  | nil => simp
  | cons c rest =>
    simp only [matchesPascal, Bool.and_eq_true] at h
    intro a ha
    rcases List.mem_cons.mp ha with rfl | hmem
    · simp [upper_ne_dash h.1]
    · have hd := List.all_eq_true.mp h.2 a hmem
      simp [alnum_ne_dash hd]

theorem kebab_roundtrip_core {P : String} (h : matchesPascal P.data = true) :
    (kebabToPascal (pascalToKebab P)).data.map Char.toLower = P.data.map Char.toLower := by
  unfold kebabToPascal pascalToKebab
  rw [map_toLower_flatten_capitalize, flatten_splitDash]
  rw [removeDashes_map_toLower, removeDashes_rep2, removeDashes_rep1, matchesPascal_no_dash h]
  rw [List.map_map]
  exact List.map_congr_left (fun c _ => toLower_toLower c)

theorem commandNameToId_append {P : String} (h : matchesPascal P.data = true) :
    commandNameToId (P ++ "Command") = .ok (pascalToKebab P) := by
  have hend : endsWithStr (P ++ "Command") "Command" = true := by
    unfold endsWithStr
    rw [String.data_append]
    simp [List.isSuffixOf_iff_suffix]
  have hlen : ("Command".data).length = 7 := rfl
  have htake : (P ++ "Command").data.take ((P ++ "Command").data.length - "Command".data.length)
      = P.data := by
    rw [String.data_append, List.length_append]
    exact List.take_left' (by omega)
  have hne : ¬ P.data.length = 0 := by
    cases hd : P.data with
    | nil =>
      rw [hd] at h
      simp [matchesPascal] at h
    | cons c r => simp [hd]
  unfold commandNameToId
  rw [hend]
  rw [if_neg (by simp), htake, if_neg hne]

/-- C4: for every class name of the form `P ++ "Command"` where `P` matches
`^[A-Z][A-Za-z0-9]*$`, converting with `commandNameToId` succeeds and
formatting the identifier back with `kebabToPascal` yields a string equal to
`P` under case-folding; in particular
`commandNameToId "UserInfoCommand" = ok "user-info"` and
`kebabToPascal "user-info" = "UserInfo"`. -/
theorem c4_roundtrip_under_case_folding :
    (∀ P : String, matchesPascal P.data = true →
      commandNameToId (P ++ "Command") = .ok (pascalToKebab P)
        ∧ lowerStr (kebabToPascal (pascalToKebab P)) = lowerStr P)
    ∧ commandNameToId "UserInfoCommand" = .ok "user-info"
    ∧ kebabToPascal "user-info" = "UserInfo" := by
  refine ⟨?_, rfl, rfl⟩
  intro P h
  refine ⟨commandNameToId_append h, ?_⟩
  unfold lowerStr
  exact congrArg String.mk (kebab_roundtrip_core h)

/-- Witness for C4 at the concrete class name prefix `UserInfo`. -/
theorem c4_roundtrip_under_case_folding_witness :
    commandNameToId ("UserInfo" ++ "Command") = .ok (pascalToKebab "UserInfo")
      ∧ lowerStr (kebabToPascal (pascalToKebab "UserInfo")) = lowerStr "UserInfo" :=
  c4_roundtrip_under_case_folding.1 "UserInfo" (by decide)

/-- C5: `commandNameToId` fails exactly on the inputs that do not end with
`Command` or equal the bare suffix `Command`; every other input returns
normally; in particular `commandNameToId "Command"` and `commandNameToId ""`
fail. -/
theorem c5_commandNameToId_failure_shape :
    (∀ s : String, (∃ e, commandNameToId s = .error e)
        ↔ (endsWithStr s "Command" = false ∨ s = "Command"))
    ∧ (∃ e, commandNameToId "Command" = .error e)
    ∧ (∃ e, commandNameToId "" = .error e) := by
  refine ⟨?_, ⟨_, rfl⟩, ⟨_, rfl⟩⟩
  intro s
  constructor
  · rintro ⟨e, he⟩
    by_cases hend : endsWithStr s "Command" = true
    · right
      unfold commandNameToId at he
      rw [hend, if_neg (by simp)] at he
      by_cases hz : (s.data.take (s.data.length - "Command".data.length)).length = 0
      · have hsuf : "Command".data.isSuffixOf s.data = true := hend
        rw [List.isSuffixOf_iff_suffix] at hsuf
        obtain ⟨t, ht⟩ := hsuf
        have hlen7 : ("Command".data).length = 7 := rfl
        have htake : s.data.take (s.data.length - "Command".data.length) = t := by
          rw [← ht, List.length_append]
          exact List.take_left' (by omega)
        rw [htake] at hz
        have htnil : t = [] := List.length_eq_zero.mp hz
        subst htnil
        have : s.data = "Command".data := by simpa using ht.symm
        cases s
        simpa using congrArg String.mk this
      · rw [if_neg hz] at he
        exact absurd he (by simp)
    · left
      simpa using hend
  · intro h
    rcases h with h | rfl
    · refine ⟨"Invalid command class name: \"" ++ s ++
        "\". Command classes must end with \"Command\".", ?_⟩
      unfold commandNameToId
      rw [h]
      simp
    · exact ⟨_, rfl⟩

/-- Witness for C5: the failure characterization applied at the concrete
inputs `PingX` (no suffix), `Command` (bare suffix) and `PingCommand`
(well-formed, returns normally). -/
theorem c5_commandNameToId_failure_shape_witness :
    (endsWithStr "PingX" "Command" = false ∨ "PingX" = "Command")
    ∧ ¬ (∃ e, commandNameToId "PingCommand" = .error e) := by
  constructor
  · exact (c5_commandNameToId_failure_shape.1 "PingX").mp ⟨_, rfl⟩
  · intro hex
    have h := (c5_commandNameToId_failure_shape.1 "PingCommand").mp hex
    rcases h with h | h
    · exact absurd h (by decide)
    · exact absurd h (by decide)

/-! ## Helper lemmas: association-list objects and the deep merge -/

theorem getEntry_setEntry_self {α : Type} (o : List (String × α)) (k : String) (v : α) :
    getEntry (setEntry o k v) k = some v := by
  induction o with
  | nil => simp [setEntry, getEntry]
  | cons e rest ih =>
    obtain ⟨k', v'⟩ := e
    by_cases h : k' = k
    · simp [setEntry, getEntry, h]
    · simp [setEntry, getEntry, h, ih]

theorem getEntry_setEntry_ne {α : Type} (o : List (String × α)) {k k' : String} (v : α)
    (h : k ≠ k') : getEntry (setEntry o k v) k' = getEntry o k' := by
  induction o with
  | nil => simp [setEntry, getEntry, h]
  | cons e rest ih =>
    obtain ⟨k0, v0⟩ := e
    by_cases h0 : k0 = k
    · subst h0
      simp [setEntry, getEntry, h]
    · simp only [setEntry, if_neg h0]
      by_cases h1 : k0 = k'
      · simp [getEntry, h1]
      · simp [getEntry, h1, ih]

theorem getEntry_eq_none {α : Type} {o : List (String × α)} {k : String}
    (h : k ∉ o.map Prod.fst) : getEntry o k = none := by
  induction o with
  | nil => rfl
  | cons e rest ih =>
    obtain ⟨k', v⟩ := e
    simp only [List.map_cons, List.mem_cons] at h
    push_neg at h
    have hne : ¬ k' = k := fun he => h.1 he.symm
    simp [getEntry, hne, ih h.2]

theorem deepMerge_nil (target : JObj) : deepMerge target [] = target := by
  rw [deepMerge]

theorem deepMerge_cons_dangerous (target : JObj) {k1 : String} (sv : JValue) (rest : JObj)
    (hd : k1 ∈ dangerousKeys) :
    deepMerge target ((k1, sv) :: rest) = deepMerge target rest := by
  rw [deepMerge.eq_def]
  simp [hd]

theorem deepMerge_cons_objs (target : JObj) {k1 : String} {t : JObj} (s : JObj) (rest : JObj)
    (hd : k1 ∉ dangerousKeys) (ht : getEntry target k1 = some (.obj t)) :
    deepMerge target ((k1, .obj s) :: rest)
      = deepMerge (setEntry target k1 (.obj (deepMerge t s))) rest := by
  rw [deepMerge.eq_def]
  simp [hd, ht]

theorem deepMerge_cons_undef (target : JObj) {k1 : String} (rest : JObj)
    (hd : k1 ∉ dangerousKeys) :
    deepMerge target ((k1, .undef) :: rest) = deepMerge target rest := by
  rw [deepMerge.eq_def]
  simp only [if_neg hd]

theorem deepMerge_cons_replace (target : JObj) {k1 : String} {sv : JValue} (rest : JObj)
    (hd : k1 ∉ dangerousKeys) (hundef : sv ≠ .undef)
    (hno : (∀ t, getEntry target k1 ≠ some (.obj t)) ∨ ∀ s, sv ≠ .obj s) :
    deepMerge target ((k1, sv) :: rest) = deepMerge (setEntry target k1 sv) rest := by
  rw [deepMerge.eq_def]
  simp only [if_neg hd]
  split
  · rename_i s t heq
    rcases hno with h | h
    · exact absurd heq (h t)
    · exact absurd rfl (h s)
  · exact absurd rfl hundef
  · rfl

theorem mergedAt_source_none {target source : JObj} {k : String}
    (h : getEntry source k = none) : mergedAt target source k = getEntry target k := by
  unfold mergedAt
  rw [h]
  by_cases hd : k ∈ dangerousKeys <;> simp [hd]

theorem mergedAt_congr {t1 t2 : JObj} (source : JObj) (k : String)
    (h : getEntry t1 k = getEntry t2 k) : mergedAt t1 source k = mergedAt t2 source k := by
  unfold mergedAt
  rw [h]

theorem mergedAt_cons_ne (target : JObj) {k1 : String} (sv : JValue) (rest : JObj) {k : String}
    (hne : k1 ≠ k) : mergedAt target ((k1, sv) :: rest) k = mergedAt target rest k := by
  unfold mergedAt
  simp [getEntry, hne]

theorem mergedAt_cons_self (target : JObj) (k1 : String) (sv : JValue) (rest : JObj)
    (hd : k1 ∉ dangerousKeys) :
    mergedAt target ((k1, sv) :: rest) k1
      = match sv, getEntry target k1 with
        | .obj s, some (.obj t) => some (.obj (deepMerge t s))
        | .undef, _ => getEntry target k1
        | _, _ => some sv := by
  unfold mergedAt
  rw [if_neg hd]
  have hsrc : getEntry ((k1, sv) :: rest) k1 = some sv := by simp [getEntry]
  rw [hsrc]

theorem deepMerge_cons_preserve (target : JObj) (k1 : String) (sv : JValue) (rest : JObj)
    (k : String) (hne : k1 ≠ k) :
    ∃ target', deepMerge target ((k1, sv) :: rest) = deepMerge target' rest
      ∧ getEntry target' k = getEntry target k := by
  by_cases hd : k1 ∈ dangerousKeys
  · exact ⟨target, deepMerge_cons_dangerous _ _ _ hd, rfl⟩
  by_cases hu : sv = .undef
  · subst hu
    exact ⟨target, deepMerge_cons_undef _ _ hd, rfl⟩
  by_cases hb : ∃ s t, sv = .obj s ∧ getEntry target k1 = some (.obj t)
  · obtain ⟨s, t, rfl, ht⟩ := hb
    exact ⟨setEntry target k1 (.obj (deepMerge t s)), deepMerge_cons_objs _ _ _ hd ht,
      getEntry_setEntry_ne _ _ hne⟩
  · refine ⟨setEntry target k1 sv, deepMerge_cons_replace _ _ hd hu ?_,
      getEntry_setEntry_ne _ _ hne⟩
    push_neg at hb
    by_cases hobj : ∃ s, sv = .obj s
    · obtain ⟨s, rfl⟩ := hobj
      left
      intro t ht
      exact hb s t rfl ht
    · right
      intro s2 hs2
      exact hobj ⟨s2, hs2⟩

theorem getEntry_deepMerge (source : JObj) :
    ∀ (target : JObj) (k : String), (source.map Prod.fst).Nodup →
      getEntry (deepMerge target source) k = mergedAt target source k := by
  induction source with
  | nil =>
    intro target k _
    have hz : mergedAt target ([] : JObj) k = getEntry target k := mergedAt_source_none rfl
    rw [deepMerge_nil, hz]
  | cons e rest ih =>
    intro target k hnd
    obtain ⟨k1, sv⟩ := e
    simp only [List.map_cons, List.nodup_cons] at hnd
    obtain ⟨hk1, hrest⟩ := hnd
    by_cases hkk : k1 = k
    · subst hkk
      have hsrc : getEntry ((k1, sv) :: rest) k1 = some sv := by simp [getEntry]
      have hnone : getEntry rest k1 = none := getEntry_eq_none hk1
      by_cases hd : k1 ∈ dangerousKeys
      · rw [deepMerge_cons_dangerous _ _ _ hd, ih target k1 hrest,
          mergedAt_source_none hnone]
        unfold mergedAt
        rw [if_pos hd]
      · by_cases hu : sv = .undef
        · subst hu
          rw [deepMerge_cons_undef _ _ hd, ih target k1 hrest, mergedAt_source_none hnone,
            mergedAt_cons_self _ _ _ _ hd]
        · by_cases hb : ∃ s t, sv = .obj s ∧ getEntry target k1 = some (.obj t)
          · obtain ⟨s, t, rfl, ht⟩ := hb
            rw [deepMerge_cons_objs _ _ _ hd ht, ih _ k1 hrest, mergedAt_source_none hnone,
              getEntry_setEntry_self, mergedAt_cons_self _ _ _ _ hd, ht]
          · have hno : (∀ t, getEntry target k1 ≠ some (.obj t)) ∨ ∀ s, sv ≠ .obj s := by
              push_neg at hb
              by_cases hobj : ∃ s, sv = .obj s
              · obtain ⟨s, rfl⟩ := hobj
                left
                intro t ht
                exact hb s t rfl ht
              · right
                intro s2 hs2
                exact hobj ⟨s2, hs2⟩
            rw [deepMerge_cons_replace _ _ hd hu hno, ih _ k1 hrest,
              mergedAt_source_none hnone, getEntry_setEntry_self, mergedAt_cons_self _ _ _ _ hd]
            split
            · rename_i s t heq
              rcases hno with h | h
              · exact absurd heq (h t)
              · exact absurd rfl (h s)
            · exact absurd rfl hu
            · rfl
    · obtain ⟨target', hstep, hpres⟩ := deepMerge_cons_preserve target k1 sv rest k hkk
      rw [hstep, ih target' k hrest, mergedAt_congr rest k hpres, mergedAt_cons_ne _ _ _ hkk]

/-- C7: for every pair of plain-object trees and every key, the value of
`deepMerge target source` at that key follows the per-key description
`mergedAt`: denylisted keys (`__proto__`, `constructor`, `prototype`) are
always skipped, keys absent from the override keep the target value, a pair
of plain objects merges recursively, the `undefined` sentinel keeps the
existing value, and any other override value replaces the existing one
outright (arrays and primitives included). The override object, being a
JavaScript object, has distinct keys. -/
theorem c7_deepMerge_per_key (target source : JObj) (k : String)
    (hsrc : (source.map Prod.fst).Nodup) :
    getEntry (deepMerge target source) k = mergedAt target source k :=
  getEntry_deepMerge source target k hsrc

/-- Witness for C7 on a small concrete merge exercising the nested-object,
replacement, undefined and denylist cases. -/
theorem c7_deepMerge_per_key_witness :
    (([("database", JValue.obj [("port", JValue.num 3306)]), ("keep", JValue.str "x"),
        ("drop", JValue.undef), ("__proto__", JValue.num 1)].map Prod.fst).Nodup
      = true)
    ∧ getEntry (deepMerge
        [("database", JValue.obj [("port", JValue.num 5432), ("host", JValue.str "h")]),
         ("keep", JValue.str "old"), ("drop", JValue.str "kept"), ("arr", JValue.arr [])]
        [("database", JValue.obj [("port", JValue.num 3306)]), ("keep", JValue.str "x"),
         ("drop", JValue.undef), ("__proto__", JValue.num 1)]) "database"
      = mergedAt
        [("database", JValue.obj [("port", JValue.num 5432), ("host", JValue.str "h")]),
         ("keep", JValue.str "old"), ("drop", JValue.str "kept"), ("arr", JValue.arr [])]
        [("database", JValue.obj [("port", JValue.num 3306)]), ("keep", JValue.str "x"),
         ("drop", JValue.undef), ("__proto__", JValue.num 1)] "database" := by
  constructor
  · decide
  · exact c7_deepMerge_per_key _ _ "database" (by decide)

/-! ## Helper lemmas: configuration validation (claims C1, C2, C6) -/

theorem zCoerceBoolDefault_some (v : JValue) :
    zCoerceBoolDefault (some v) = jsTruthy v := by
  cases v <;> rfl

theorem data_nil_iff (s : String) : s.data = [] ↔ s = "" := by
  constructor
  · intro h
    cases s
    exact congrArg String.mk h
  · intro h
    rw [h]

theorem parseDatabaseFields_port_str (o : JObj) (s : String) (cfg : DatabaseConfig)
    (hport : getEntry o "port" = some (.str s)) (hne : s ≠ "")
    (hdig : s.data.all Char.isDigit = true)
    (hok : parseDatabaseFields o = .ok cfg) : cfg.port = digitsVal s.data := by
  simp only [parseDatabaseFields] at hok
  split at hok
  · rename_i h p d u pw hh hp hd hu hpw
    rw [hport] at hp
    have hs : ¬ s.data = [] := by
      simpa [data_nil_iff] using hne
    simp only [zPort, jsNumber, if_neg hs, if_pos hdig] at hp
    split at hp
    · exact absurd hp (by simp)
    · split at hp
      · exact absurd hp (by simp)
      · simp only [Except.ok.injEq] at hp hok
        rw [← hok, ← hp]
  · exact absurd hok (by simp)

theorem parseDatabaseFields_synchronize (o : JObj) (v : JValue) (cfg : DatabaseConfig)
    (hv : getEntry o "synchronize" = some v)
    (hok : parseDatabaseFields o = .ok cfg) : cfg.synchronize = jsTruthy v := by
  simp only [parseDatabaseFields] at hok
  split at hok
  · rename_i h p d u pw hh hp hd hu hpw
    simp only [Except.ok.injEq] at hok
    rw [← hok]
    show zCoerceBoolDefault (getEntry o "synchronize") = jsTruthy v
    rw [hv, zCoerceBoolDefault_some]
  · exact absurd hok (by simp)

theorem parseDatabaseFields_logging (o : JObj) (v : JValue) (cfg : DatabaseConfig)
    (hv : getEntry o "logging" = some v)
    (hok : parseDatabaseFields o = .ok cfg) : cfg.logging = jsTruthy v := by
  simp only [parseDatabaseFields] at hok
  split at hok
  · rename_i h p d u pw hh hp hd hu hpw
    simp only [Except.ok.injEq] at hok
    rw [← hok]
    show zCoerceBoolDefault (getEntry o "logging") = jsTruthy v
    rw [hv, zCoerceBoolDefault_some]
  · exact absurd hok (by simp)

/-- C1: for every configuration object that parses structurally, if
development-mode is false and the destructive-schema-sync flag is true then
validation rejects the configuration with the violation attached to the
`database.synchronize` field; with development-mode true the same flag
combination passes validation. -/
theorem c1_production_safety_cross_field (o : JObj) (cfg : BaseConfig)
    (h : parseBaseConfig o = .ok cfg) :
    (cfg.isDevelopment = false → cfg.database.synchronize = true →
      validateBaseConfig o = .error [⟨["database", "synchronize"],
        "Database synchronization must be disabled in production environments"⟩])
    ∧ (cfg.isDevelopment = true → validateBaseConfig o = .ok cfg) := by
  constructor
  · intro hdev hsync
    have hps : productionSafetyIssues cfg = [⟨["database", "synchronize"],
        "Database synchronization must be disabled in production environments"⟩] := by
      unfold productionSafetyIssues
      rw [if_pos ⟨hdev, hsync⟩]
    unfold validateBaseConfig
    rw [h]
    show (match productionSafetyIssues cfg with
          | [] => Except.ok cfg
          | issues => Except.error issues) = _
    rw [hps]
  · intro hdev
    have hps : productionSafetyIssues cfg = [] := by
      unfold productionSafetyIssues
      rw [if_neg (by simp [hdev])]
    unfold validateBaseConfig
    rw [h]
    show (match productionSafetyIssues cfg with
          | [] => Except.ok cfg
          | issues => Except.error issues) = _
    rw [hps]

/-- Witness for C1: a concrete production configuration with
`synchronize: true` is rejected on the sync-flag field, and the same flags
with `isDevelopment: true` validate. -/
theorem c1_production_safety_cross_field_witness :
    validateBaseConfig
      [("isDevelopment", .jbool false),
       ("discord", .obj [("token", .str "test-token")]),
       ("database", .obj [("database", .str "test"), ("username", .str "user"),
          ("password", .str "pass"), ("synchronize", .jbool true)]),
       ("paths", .obj [])]
      = .error [⟨["database", "synchronize"],
          "Database synchronization must be disabled in production environments"⟩]
    ∧ validateBaseConfig
      [("isDevelopment", .jbool true),
       ("discord", .obj [("token", .str "test-token")]),
       ("database", .obj [("database", .str "test"), ("username", .str "user"),
          ("password", .str "pass"), ("synchronize", .jbool true)]),
       ("paths", .obj [])]
      = .ok ⟨true, ⟨"test-token", none, none, ⟨5000, 15000, true, false⟩⟩,
          ⟨"localhost", 5432, "test", "user", "pass", true, false⟩,
          ⟨"./src/entities", "./src/commands", "./src/jobs", "./src/events", "./src/services"⟩,
          ⟨none, none, none, none, none⟩⟩ :=
  ⟨(c1_production_safety_cross_field
      [("isDevelopment", .jbool false),
       ("discord", .obj [("token", .str "test-token")]),
       ("database", .obj [("database", .str "test"), ("username", .str "user"),
          ("password", .str "pass"), ("synchronize", .jbool true)]),
       ("paths", .obj [])]
      ⟨false, ⟨"test-token", none, none, ⟨5000, 15000, true, false⟩⟩,
        ⟨"localhost", 5432, "test", "user", "pass", true, false⟩,
        ⟨"./src/entities", "./src/commands", "./src/jobs", "./src/events", "./src/services"⟩,
        ⟨none, none, none, none, none⟩⟩ rfl).1 rfl rfl,
   (c1_production_safety_cross_field
      [("isDevelopment", .jbool true),
       ("discord", .obj [("token", .str "test-token")]),
       ("database", .obj [("database", .str "test"), ("username", .str "user"),
          ("password", .str "pass"), ("synchronize", .jbool true)]),
       ("paths", .obj [])]
      ⟨true, ⟨"test-token", none, none, ⟨5000, 15000, true, false⟩⟩,
        ⟨"localhost", 5432, "test", "user", "pass", true, false⟩,
        ⟨"./src/entities", "./src/commands", "./src/jobs", "./src/events", "./src/services"⟩,
        ⟨none, none, none, none, none⟩⟩ rfl).2 rfl⟩

/-- Counterexample for C2 as stated: in `DatabaseConfigSchema` the boolean
fields use `z.coerce.boolean()`, which is JavaScript truthiness, so the
string `"false"` supplied for `database.logging` validates successfully and
coerces to `true`, not `false`. -/
theorem c2_counterexample_false_string :
    parseDatabaseFields [("database", .str "test"), ("username", .str "user"),
        ("password", .str "pass"), ("logging", .str "false")]
      = .ok ⟨"localhost", 5432, "test", "user", "pass", false, true⟩
    ∧ (⟨"localhost", 5432, "test", "user", "pass", false, true⟩
        : DatabaseConfig).logging = true :=
  ⟨rfl, rfl⟩

/-- C2 (amended): during configuration validation a numeric field supplied as
a non-empty digit string coerces to the corresponding number; a boolean field
(`database.synchronize`, `database.logging`) supplied as any value coerces by
JavaScript truthiness, so the string `"true"` coerces to `true` but the
string `"false"` also coerces to `true` (only empty strings, `0`, `NaN`,
`null` and `undefined` coerce to `false`). -/
theorem c2_string_coercion_amended :
    (∀ (o : JObj) (s : String) (cfg : DatabaseConfig),
      getEntry o "port" = some (.str s) → s ≠ "" → s.data.all Char.isDigit = true →
      parseDatabaseFields o = .ok cfg → cfg.port = digitsVal s.data)
    ∧ (∀ (o : JObj) (v : JValue) (cfg : DatabaseConfig),
      getEntry o "synchronize" = some v → parseDatabaseFields o = .ok cfg →
      cfg.synchronize = jsTruthy v)
    ∧ (∀ (o : JObj) (v : JValue) (cfg : DatabaseConfig),
      getEntry o "logging" = some v → parseDatabaseFields o = .ok cfg →
      cfg.logging = jsTruthy v)
    ∧ digitsVal "3306".data = 3306
    ∧ jsTruthy (.str "true") = true
    ∧ jsTruthy (.str "false") = true :=
  ⟨parseDatabaseFields_port_str, parseDatabaseFields_synchronize,
    parseDatabaseFields_logging, rfl, rfl, rfl⟩

/-- Witness for C2 (amended): the port string `"3306"` coerces to the number
3306 and both boolean-looking strings coerce to `true` on a concrete
database section. -/
theorem c2_string_coercion_amended_witness :
    (⟨"localhost", 3306, "test", "user", "pass", true, true⟩ : DatabaseConfig).port
        = digitsVal "3306".data
    ∧ (⟨"localhost", 3306, "test", "user", "pass", true, true⟩
        : DatabaseConfig).synchronize = jsTruthy (.str "true")
    ∧ (⟨"localhost", 3306, "test", "user", "pass", true, true⟩
        : DatabaseConfig).logging = jsTruthy (.str "false") :=
  ⟨c2_string_coercion_amended.1
      [("port", .str "3306"), ("database", .str "test"), ("username", .str "user"),
        ("password", .str "pass"), ("synchronize", .str "true"), ("logging", .str "false")]
      "3306" _ rfl (by decide) (by decide) rfl,
   c2_string_coercion_amended.2.1
      [("port", .str "3306"), ("database", .str "test"), ("username", .str "user"),
        ("password", .str "pass"), ("synchronize", .str "true"), ("logging", .str "false")]
      (.str "true") _ rfl rfl,
   c2_string_coercion_amended.2.2.1
      [("port", .str "3306"), ("database", .str "test"), ("username", .str "user"),
        ("password", .str "pass"), ("synchronize", .str "true"), ("logging", .str "false")]
      (.str "false") _ rfl rfl⟩

/-! ## Helper lemmas: configuration merge precedence (claim C6) -/

theorem getEntry_append_none {α : Type} {l1 : List (String × α)} (l2 : List (String × α))
    (k : String) (h : getEntry l1 k = none) : getEntry (l1 ++ l2) k = getEntry l2 k := by
  induction l1 with
  | nil => rfl
  | cons e rest ih =>
    obtain ⟨k1, v1⟩ := e
    by_cases hk : k1 = k
    · simp [getEntry, hk] at h
    · simp only [getEntry, if_neg hk] at h
      simp [getEntry, if_neg hk, ih h]

theorem getEntry_append_some {α : Type} {l1 : List (String × α)} (l2 : List (String × α))
    {k : String} {v : α} (h : getEntry l1 k = some v) : getEntry (l1 ++ l2) k = some v := by
  induction l1 with
  | nil => simp [getEntry] at h
  | cons e rest ih =>
    obtain ⟨k1, v1⟩ := e
    by_cases hk : k1 = k
    · simp only [getEntry, if_pos hk] at h
      simp [getEntry, if_pos hk, h]
    · simp only [getEntry, if_neg hk] at h
      simp [getEntry, if_neg hk, ih h]

theorem getEntry_envEntry_ne {v : Option String} {k k' : String} (f : String → JValue)
    (h : ¬ k = k') : getEntry (envEntry v k f) k' = none := by
  unfold envEntry
  cases v with
  | none => rfl
  | some s =>
    by_cases hs : s = "" <;> simp [hs, getEntry, h]

theorem getEntry_envEntry_self {s : String} {k : String} (f : String → JValue)
    (hs : ¬ s = "") : getEntry (envEntry (some s) k f) k = some (f s) := by
  simp only [envEntry, if_neg hs]
  simp [getEntry]

theorem getEntry_databaseSection_port_env (env : Env) {s : String}
    (h : env.DB_PORT = some s) (hs : ¬ s = "") :
    getEntry (databaseSection env) "port" = some (jsParseIntVal s) := by
  unfold databaseSection
  rw [getEntry_append_none _ _ (getEntry_envEntry_ne _ (by decide)), h,
    getEntry_append_some _ (getEntry_envEntry_self _ hs)]

theorem getEntry_databaseSection_port_none (env : Env) (h : env.DB_PORT = none) :
    getEntry (databaseSection env) "port" = none := by
  unfold databaseSection
  rw [getEntry_append_none _ _ (getEntry_envEntry_ne _ (by decide)), h,
    getEntry_append_none _ _
      (show getEntry (envEntry none "port" jsParseIntVal) "port" = none from rfl),
    getEntry_append_none _ _ (getEntry_envEntry_ne _ (by decide)),
    getEntry_append_none _ _ (getEntry_envEntry_ne _ (by decide)),
    getEntry_append_none _ _ (getEntry_envEntry_ne _ (by decide)),
    getEntry_append_none _ _ (getEntry_envEntry_ne _ (by decide))]
  exact getEntry_envEntry_ne _ (by decide)

theorem getEntry_buildBaseConfig_database (env : Env) (cwd : String) :
    getEntry (buildBaseConfig env cwd) "database" = some (.obj (databaseSection env)) := rfl

theorem validateBaseConfig_ok {o : JObj} {cfg : BaseConfig}
    (h : validateBaseConfig o = .ok cfg) : parseBaseConfig o = .ok cfg := by
  unfold validateBaseConfig at h
  split at h
  · exact absurd h (by simp)
  · rename_i cfg2 hp
    split at h
    · simp only [Except.ok.injEq] at h
      rw [← h]
      exact hp
    · exact absurd h (by simp)

theorem parseBaseConfig_database {o : JObj} {cfg : BaseConfig}
    (h : parseBaseConfig o = .ok cfg) :
    parseDatabase (getEntry o "database") = .ok cfg.database := by
  simp only [parseBaseConfig] at h
  split at h
  · rename_i dev di db pa lo hdev hdi hdb hpa hlo
    simp only [Except.ok.injEq] at h
    rw [← h]
    exact hdb
  · exact absurd h (by simp)

theorem parseDatabase_port_num {m : JObj} {p : Int} {cfg : DatabaseConfig}
    (hport : getEntry m "port" = some (.num p))
    (h : parseDatabase (some (.obj m)) = .ok cfg) : cfg.port = p := by
  simp only [parseDatabase, parseDatabaseFields] at h
  split at h
  · rename_i hh pp dd uu pw hhh hpp hdd huu hpw
    rw [hport] at hpp
    simp only [zPort, jsNumber] at hpp
    split at hpp
    · exact absurd hpp (by simp)
    · split at hpp
      · exact absurd hpp (by simp)
      · simp only [Except.ok.injEq] at hpp h
        rw [← h, ← hpp]
  · exact absurd h (by simp)

theorem parseDatabase_port_missing {m : JObj} {cfg : DatabaseConfig}
    (hport : getEntry m "port" = none)
    (h : parseDatabase (some (.obj m)) = .ok cfg) : cfg.port = 5432 := by
  simp only [parseDatabase, parseDatabaseFields] at h
  split at h
  · rename_i hh pp dd uu pw hhh hpp hdd huu hpw
    rw [hport] at hpp
    simp only [zPort] at hpp
    simp only [Except.ok.injEq] at hpp h
    rw [← h, ← hpp]
  · exact absurd h (by simp)

theorem jsParseIntVal_all_digits {s : String} (hne : s ≠ "")
    (hdig : s.data.all Char.isDigit = true) : jsParseIntVal s = .num (digitsVal s.data) := by
  unfold jsParseIntVal
  have htw : s.data.takeWhile Char.isDigit = s.data := by
    rw [List.takeWhile_eq_self_iff]
    exact fun x hx => List.all_eq_true.mp hdig x hx
  rw [htw]
  rcases hd : s.data with _ | ⟨c, r⟩
  · exact absurd ((data_nil_iff s).mp hd) hne
  · rfl

theorem getEntry_mergedConfig (env : Env) (cwd : String) {ov : JObj}
    (hnd : (ov.map Prod.fst).Nodup) (sec : String) :
    getEntry (mergedConfig env cwd (some ov)) sec
      = mergedAt (buildBaseConfig env cwd) ov sec :=
  getEntry_deepMerge ov (buildBaseConfig env cwd) sec hnd

theorem mergedAt_scalar_override {target source : JObj} {k : String} {v : JValue}
    (hd : k ∉ dangerousKeys) (hv : getEntry source k = some v) (hu : v ≠ .undef)
    (hno : (∀ s, v ≠ .obj s) ∨ (∀ t, getEntry target k ≠ some (.obj t))) :
    mergedAt target source k = some v := by
  unfold mergedAt
  rw [if_neg hd, hv]
  rcases hg : getEntry target k with _ | w
  · cases v <;> first | rfl | exact absurd rfl hu
  · cases v with
    | undef => exact absurd rfl hu
    | obj s =>
      rcases hno with h | h
      · exact absurd rfl (h s)
      · cases w <;> first | rfl | exact absurd hg (h _)
    | str s => cases w <;> rfl
    | num n => cases w <;> rfl
    | nan => cases w <;> rfl
    | jbool b => cases w <;> rfl
    | jnull => cases w <;> rfl
    | arr es => cases w <;> rfl

/-- C6: the configuration built by `createConfig` is determined per field by
ascending priority. (1) For every environment, override object, section and
field: an override-supplied defined value wins at that field in the merged
configuration object (the recursive object-object merge aside), a field the
override section does not supply falls back to the environment-built base
section value, and a section the override lacks entirely is the
environment-built section. Through the full pipeline, with the schema
default applied to the absent field, for `database.port`:
(2) an explicit caller override wins over environment and default;
(3) a set, non-empty, numeric `DB_PORT` wins over the default whenever the
overrides do not supply the port, whether absent or present without it;
(4) with `DB_PORT` unset and no port override the schema default 5432
applies. -/
theorem c6_field_merge_precedence :
    (∀ (env : Env) (cwd : String) (ov : JObj) (sec fld : String) (bs os : JObj),
      sec ∉ dangerousKeys → fld ∉ dangerousKeys →
      (ov.map Prod.fst).Nodup → (os.map Prod.fst).Nodup →
      getEntry (buildBaseConfig env cwd) sec = some (.obj bs) →
      getEntry ov sec = some (.obj os) →
      (∀ v : JValue, getEntry os fld = some v → v ≠ .undef →
        ((∀ s, v ≠ .obj s) ∨ (∀ t, getEntry bs fld ≠ some (.obj t))) →
        rawFieldAt (mergedConfig env cwd (some ov)) sec fld = some v)
      ∧ (getEntry os fld = none →
        rawFieldAt (mergedConfig env cwd (some ov)) sec fld = getEntry bs fld))
    ∧ (∀ (env : Env) (cwd : String) (ov : JObj) (sec : String),
      (ov.map Prod.fst).Nodup → getEntry ov sec = none →
      getEntry (mergedConfig env cwd (some ov)) sec
        = getEntry (buildBaseConfig env cwd) sec)
    ∧ (∀ (env : Env) (cwd : String) (o d : JObj) (p : Int) (cfg : BaseConfig),
      getEntry o "database" = some (.obj d) → getEntry d "port" = some (.num p) →
      (o.map Prod.fst).Nodup → (d.map Prod.fst).Nodup →
      createConfig env cwd (some o) = .ok cfg → cfg.database.port = p)
    ∧ (∀ (env : Env) (cwd : String) (ov : Option JObj) (s : String) (cfg : BaseConfig),
      env.DB_PORT = some s → s ≠ "" → s.data.all Char.isDigit = true →
      noPortOverride ov →
      createConfig env cwd ov = .ok cfg → cfg.database.port = digitsVal s.data)
    ∧ (∀ (env : Env) (cwd : String) (ov : Option JObj) (cfg : BaseConfig),
      env.DB_PORT = none → noPortOverride ov →
      createConfig env cwd ov = .ok cfg → cfg.database.port = 5432) := by
  refine ⟨?_, ?_, ?_, ?_, ?_⟩
  · intro env cwd ov sec fld bs os hsec hfld hnov hnos hbs hos
    have hm : getEntry (mergedConfig env cwd (some ov)) sec
        = some (.obj (deepMerge bs os)) := by
      rw [getEntry_mergedConfig env cwd hnov sec]
      unfold mergedAt
      rw [if_neg hsec, hos, hbs]
    constructor
    · intro v hv hu hno
      unfold rawFieldAt
      rw [hm]
      show getEntry (deepMerge bs os) fld = some v
      rw [getEntry_deepMerge os bs fld hnos]
      exact mergedAt_scalar_override hfld hv hu hno
    · intro hnone
      unfold rawFieldAt
      rw [hm]
      show getEntry (deepMerge bs os) fld = getEntry bs fld
      rw [getEntry_deepMerge os bs fld hnos]
      exact mergedAt_source_none hnone
  · intro env cwd ov sec hnov hnone
    rw [getEntry_mergedConfig env cwd hnov sec]
    exact mergedAt_source_none hnone
  · intro env cwd o d p cfg ho hd hno hnd hok
    have hmerged : getEntry (deepMerge (buildBaseConfig env cwd) o) "database"
        = some (.obj (deepMerge (databaseSection env) d)) := by
      rw [getEntry_deepMerge o _ _ hno]
      unfold mergedAt
      rw [if_neg (by decide), ho, getEntry_buildBaseConfig_database]
    have hport : getEntry (deepMerge (databaseSection env) d) "port" = some (.num p) := by
      rw [getEntry_deepMerge d _ _ hnd]
      unfold mergedAt
      rw [if_neg (by decide), hd]
    have hparse := parseBaseConfig_database (validateBaseConfig_ok hok)
    rw [show mergedConfig env cwd (some o) = deepMerge (buildBaseConfig env cwd) o from rfl,
      hmerged] at hparse
    exact parseDatabase_port_num hport hparse
  · intro env cwd ov s cfg hs hne hdig hnp hok
    have hparse := parseBaseConfig_database (validateBaseConfig_ok hok)
    have hsec : getEntry (databaseSection env) "port" = some (.num (digitsVal s.data)) := by
      rw [getEntry_databaseSection_port_env env hs hne, jsParseIntVal_all_digits hne hdig]
    cases ov with
    | none =>
      rw [show mergedConfig env cwd none = buildBaseConfig env cwd from rfl,
        getEntry_buildBaseConfig_database] at hparse
      exact parseDatabase_port_num hsec hparse
    | some ovo =>
      obtain ⟨hnov, hcase⟩ := hnp
      rcases hcase with hnone | ⟨d, hd, hnd, hdport⟩
      · rw [getEntry_mergedConfig env cwd hnov "database",
          mergedAt_source_none hnone, getEntry_buildBaseConfig_database] at hparse
        exact parseDatabase_port_num hsec hparse
      · have hm : getEntry (mergedConfig env cwd (some ovo)) "database"
            = some (.obj (deepMerge (databaseSection env) d)) := by
          rw [getEntry_mergedConfig env cwd hnov "database"]
          unfold mergedAt
          rw [if_neg (by decide), hd, getEntry_buildBaseConfig_database]
        rw [hm] at hparse
        have hport2 : getEntry (deepMerge (databaseSection env) d) "port"
            = some (.num (digitsVal s.data)) := by
          rw [getEntry_deepMerge d _ _ hnd, mergedAt_source_none hdport]
          exact hsec
        exact parseDatabase_port_num hport2 hparse
  · intro env cwd ov cfg hs hnp hok
    have hparse := parseBaseConfig_database (validateBaseConfig_ok hok)
    have hsec : getEntry (databaseSection env) "port" = none :=
      getEntry_databaseSection_port_none env hs
    cases ov with
    | none =>
      rw [show mergedConfig env cwd none = buildBaseConfig env cwd from rfl,
        getEntry_buildBaseConfig_database] at hparse
      exact parseDatabase_port_missing hsec hparse
    | some ovo =>
      obtain ⟨hnov, hcase⟩ := hnp
      rcases hcase with hnone | ⟨d, hd, hnd, hdport⟩
      · rw [getEntry_mergedConfig env cwd hnov "database",
          mergedAt_source_none hnone, getEntry_buildBaseConfig_database] at hparse
        exact parseDatabase_port_missing hsec hparse
      · have hm : getEntry (mergedConfig env cwd (some ovo)) "database"
            = some (.obj (deepMerge (databaseSection env) d)) := by
          rw [getEntry_mergedConfig env cwd hnov "database"]
          unfold mergedAt
          rw [if_neg (by decide), hd, getEntry_buildBaseConfig_database]
        rw [hm] at hparse
        have hport2 : getEntry (deepMerge (databaseSection env) d) "port" = none := by
          rw [getEntry_deepMerge d _ _ hnd, mergedAt_source_none hdport]
          exact hsec
        exact parseDatabase_port_missing hport2 hparse

/-- Witness for C6, the configuration-merge-precedence example of the spec:
default port 5432, environment `DB_PORT=3306`, explicit override 3000. The
override wins in the merged raw object and in the final configuration; a
field and a section the override does not supply fall back to the
environment-built base; with the override object still present but without a
port, the environment value 3306 wins; with `DB_PORT` unset as well, the
schema default 5432 applies. -/
theorem c6_field_merge_precedence_witness :
    rawFieldAt (mergedConfig
        ⟨none, some "tok", none, none, none, some "3306", some "db", some "u", some "p",
          none, none⟩ "/app" (some [("database", .obj [("port", .num 3000)])]))
        "database" "port" = some (.num 3000)
    ∧ rawFieldAt (mergedConfig
        ⟨none, some "tok", none, none, none, some "3306", some "db", some "u", some "p",
          none, none⟩ "/app" (some [("database", .obj [("port", .num 3000)])]))
        "database" "host"
      = getEntry (databaseSection
          ⟨none, some "tok", none, none, none, some "3306", some "db", some "u", some "p",
            none, none⟩) "host"
    ∧ getEntry (mergedConfig
        ⟨none, some "tok", none, none, none, some "3306", some "db", some "u", some "p",
          none, none⟩ "/app" (some [("database", .obj [("port", .num 3000)])])) "discord"
      = getEntry (buildBaseConfig
          ⟨none, some "tok", none, none, none, some "3306", some "db", some "u", some "p",
            none, none⟩ "/app") "discord"
    ∧ createConfig
        ⟨none, some "tok", none, none, none, some "3306", some "db", some "u", some "p",
          none, none⟩ "/app" (some [("database", .obj [("port", .num 3000)])])
      = .ok ⟨true, ⟨"tok", none, none, ⟨5000, 15000, true, false⟩⟩,
          ⟨"localhost", 3000, "db", "u", "p", false, false⟩,
          ⟨"./src/entities", "./src/commands", "./src/jobs", "./src/events", "./src/services"⟩,
          ⟨some "debug", none, none, none, some (.inl ⟨"pino-pretty", none⟩)⟩⟩
    ∧ (⟨true, ⟨"tok", none, none, ⟨5000, 15000, true, false⟩⟩,
          ⟨"localhost", 3000, "db", "u", "p", false, false⟩,
          ⟨"./src/entities", "./src/commands", "./src/jobs", "./src/events", "./src/services"⟩,
          ⟨some "debug", none, none, none, some (.inl ⟨"pino-pretty", none⟩)⟩⟩
        : BaseConfig).database.port = 3000
    ∧ createConfig
        ⟨none, some "tok", none, none, none, some "3306", some "db", some "u", some "p",
          none, none⟩ "/app" (some [("database", .obj [("logging", .jbool true)])])
      = .ok ⟨true, ⟨"tok", none, none, ⟨5000, 15000, true, false⟩⟩,
          ⟨"localhost", 3306, "db", "u", "p", false, true⟩,
          ⟨"./src/entities", "./src/commands", "./src/jobs", "./src/events", "./src/services"⟩,
          ⟨some "debug", none, none, none, some (.inl ⟨"pino-pretty", none⟩)⟩⟩
    ∧ (⟨true, ⟨"tok", none, none, ⟨5000, 15000, true, false⟩⟩,
          ⟨"localhost", 3306, "db", "u", "p", false, true⟩,
          ⟨"./src/entities", "./src/commands", "./src/jobs", "./src/events", "./src/services"⟩,
          ⟨some "debug", none, none, none, some (.inl ⟨"pino-pretty", none⟩)⟩⟩
        : BaseConfig).database.port = digitsVal "3306".data
    ∧ createConfig
        ⟨none, some "tok", none, none, none, none, some "db", some "u", some "p",
          none, none⟩ "/app" (some [("database", .obj [("logging", .jbool true)])])
      = .ok ⟨true, ⟨"tok", none, none, ⟨5000, 15000, true, false⟩⟩,
          ⟨"localhost", 5432, "db", "u", "p", false, true⟩,
          ⟨"./src/entities", "./src/commands", "./src/jobs", "./src/events", "./src/services"⟩,
          ⟨some "debug", none, none, none, some (.inl ⟨"pino-pretty", none⟩)⟩⟩
    ∧ (⟨true, ⟨"tok", none, none, ⟨5000, 15000, true, false⟩⟩,
          ⟨"localhost", 5432, "db", "u", "p", false, true⟩,
          ⟨"./src/entities", "./src/commands", "./src/jobs", "./src/events", "./src/services"⟩,
          ⟨some "debug", none, none, none, some (.inl ⟨"pino-pretty", none⟩)⟩⟩
        : BaseConfig).database.port = 5432 := by
  have hm1 : mergedConfig
      ⟨none, some "tok", none, none, none, some "3306", some "db", some "u", some "p",
        none, none⟩ "/app" (some [("database", .obj [("port", .num 3000)])])
      = setEntry (buildBaseConfig
          ⟨none, some "tok", none, none, none, some "3306", some "db", some "u", some "p",
            none, none⟩ "/app") "database"
          (.obj (setEntry (databaseSection
            ⟨none, some "tok", none, none, none, some "3306", some "db", some "u", some "p",
              none, none⟩) "port" (.num 3000))) := by
    show deepMerge _ _ = _
    rw [@deepMerge_cons_objs (buildBaseConfig
        ⟨none, some "tok", none, none, none, some "3306", some "db", some "u", some "p",
          none, none⟩ "/app") "database" (databaseSection
        ⟨none, some "tok", none, none, none, some "3306", some "db", some "u", some "p",
          none, none⟩) [("port", .num 3000)] [] (by decide) rfl,
      @deepMerge_cons_replace (databaseSection
        ⟨none, some "tok", none, none, none, some "3306", some "db", some "u", some "p",
          none, none⟩) "port" (.num 3000) [] (by decide) (by simp)
        (Or.inr (fun s => by simp)),
      deepMerge_nil, deepMerge_nil]
  have hm2 : mergedConfig
      ⟨none, some "tok", none, none, none, some "3306", some "db", some "u", some "p",
        none, none⟩ "/app" (some [("database", .obj [("logging", .jbool true)])])
      = setEntry (buildBaseConfig
          ⟨none, some "tok", none, none, none, some "3306", some "db", some "u", some "p",
            none, none⟩ "/app") "database"
          (.obj (setEntry (databaseSection
            ⟨none, some "tok", none, none, none, some "3306", some "db", some "u", some "p",
              none, none⟩) "logging" (.jbool true))) := by
    show deepMerge _ _ = _
    rw [@deepMerge_cons_objs (buildBaseConfig
        ⟨none, some "tok", none, none, none, some "3306", some "db", some "u", some "p",
          none, none⟩ "/app") "database" (databaseSection
        ⟨none, some "tok", none, none, none, some "3306", some "db", some "u", some "p",
          none, none⟩) [("logging", .jbool true)] [] (by decide) rfl,
      @deepMerge_cons_replace (databaseSection
        ⟨none, some "tok", none, none, none, some "3306", some "db", some "u", some "p",
          none, none⟩) "logging" (.jbool true) [] (by decide) (by simp)
        (Or.inr (fun s => by simp)),
      deepMerge_nil, deepMerge_nil]
  have hm3 : mergedConfig
      ⟨none, some "tok", none, none, none, none, some "db", some "u", some "p",
        none, none⟩ "/app" (some [("database", .obj [("logging", .jbool true)])])
      = setEntry (buildBaseConfig
          ⟨none, some "tok", none, none, none, none, some "db", some "u", some "p",
            none, none⟩ "/app") "database"
          (.obj (setEntry (databaseSection
            ⟨none, some "tok", none, none, none, none, some "db", some "u", some "p",
              none, none⟩) "logging" (.jbool true))) := by
    show deepMerge _ _ = _
    rw [@deepMerge_cons_objs (buildBaseConfig
        ⟨none, some "tok", none, none, none, none, some "db", some "u", some "p",
          none, none⟩ "/app") "database" (databaseSection
        ⟨none, some "tok", none, none, none, none, some "db", some "u", some "p",
          none, none⟩) [("logging", .jbool true)] [] (by decide) rfl,
      @deepMerge_cons_replace (databaseSection
        ⟨none, some "tok", none, none, none, none, some "db", some "u", some "p",
          none, none⟩) "logging" (.jbool true) [] (by decide) (by simp)
        (Or.inr (fun s => by simp)),
      deepMerge_nil, deepMerge_nil]
  have hok1 : createConfig
      ⟨none, some "tok", none, none, none, some "3306", some "db", some "u", some "p",
        none, none⟩ "/app" (some [("database", .obj [("port", .num 3000)])])
      = .ok ⟨true, ⟨"tok", none, none, ⟨5000, 15000, true, false⟩⟩,
          ⟨"localhost", 3000, "db", "u", "p", false, false⟩,
          ⟨"./src/entities", "./src/commands", "./src/jobs", "./src/events", "./src/services"⟩,
          ⟨some "debug", none, none, none, some (.inl ⟨"pino-pretty", none⟩)⟩⟩ := by
    unfold createConfig
    rw [hm1]
    rfl
  have hok2 : createConfig
      ⟨none, some "tok", none, none, none, some "3306", some "db", some "u", some "p",
        none, none⟩ "/app" (some [("database", .obj [("logging", .jbool true)])])
      = .ok ⟨true, ⟨"tok", none, none, ⟨5000, 15000, true, false⟩⟩,
          ⟨"localhost", 3306, "db", "u", "p", false, true⟩,
          ⟨"./src/entities", "./src/commands", "./src/jobs", "./src/events", "./src/services"⟩,
          ⟨some "debug", none, none, none, some (.inl ⟨"pino-pretty", none⟩)⟩⟩ := by
    unfold createConfig
    rw [hm2]
    rfl
  have hok3 : createConfig
      ⟨none, some "tok", none, none, none, none, some "db", some "u", some "p",
        none, none⟩ "/app" (some [("database", .obj [("logging", .jbool true)])])
      = .ok ⟨true, ⟨"tok", none, none, ⟨5000, 15000, true, false⟩⟩,
          ⟨"localhost", 5432, "db", "u", "p", false, true⟩,
          ⟨"./src/entities", "./src/commands", "./src/jobs", "./src/events", "./src/services"⟩,
          ⟨some "debug", none, none, none, some (.inl ⟨"pino-pretty", none⟩)⟩⟩ := by
    unfold createConfig
    rw [hm3]
    rfl
  refine ⟨?_, ?_, ?_, hok1, ?_, hok2, ?_, hok3, ?_⟩
  · exact (c6_field_merge_precedence.1
      ⟨none, some "tok", none, none, none, some "3306", some "db", some "u", some "p",
        none, none⟩ "/app" [("database", .obj [("port", .num 3000)])] "database" "port"
      (databaseSection
        ⟨none, some "tok", none, none, none, some "3306", some "db", some "u", some "p",
          none, none⟩) [("port", .num 3000)]
      (by decide) (by decide) (by decide) (by decide) rfl rfl).1
      (.num 3000) rfl (by simp) (Or.inl (fun s => by simp))
  · exact (c6_field_merge_precedence.1
      ⟨none, some "tok", none, none, none, some "3306", some "db", some "u", some "p",
        none, none⟩ "/app" [("database", .obj [("port", .num 3000)])] "database" "host"
      (databaseSection
        ⟨none, some "tok", none, none, none, some "3306", some "db", some "u", some "p",
          none, none⟩) [("port", .num 3000)]
      (by decide) (by decide) (by decide) (by decide) rfl rfl).2 rfl
  · exact c6_field_merge_precedence.2.1
      ⟨none, some "tok", none, none, none, some "3306", some "db", some "u", some "p",
        none, none⟩ "/app" [("database", .obj [("port", .num 3000)])] "discord"
      (by decide) rfl
  · exact c6_field_merge_precedence.2.2.1
      ⟨none, some "tok", none, none, none, some "3306", some "db", some "u", some "p",
        none, none⟩ "/app"
      [("database", .obj [("port", .num 3000)])] [("port", .num 3000)] 3000 _
      rfl rfl (by decide) (by decide) hok1
  · exact c6_field_merge_precedence.2.2.2.1
      ⟨none, some "tok", none, none, none, some "3306", some "db", some "u", some "p",
        none, none⟩ "/app" (some [("database", .obj [("logging", .jbool true)])]) "3306" _
      rfl (by decide) (by decide)
      ⟨by decide, Or.inr ⟨[("logging", .jbool true)], rfl, by decide, rfl⟩⟩ hok2
  · exact c6_field_merge_precedence.2.2.2.2
      ⟨none, some "tok", none, none, none, none, some "db", some "u", some "p",
        none, none⟩ "/app" (some [("database", .obj [("logging", .jbool true)])]) _
      rfl ⟨by decide, Or.inr ⟨[("logging", .jbool true)], rfl, by decide, rfl⟩⟩ hok3

/-! ## Helper lemmas: discovery (claims C8, C9) -/

theorem walkChainReaches_iff (base : String) (l : List String) :
    walkChainReaches base l = true ↔ base ∈ l := by
  induction l with
  | nil => simp [walkChainReaches]
  | cons c rest ih =>
    simp only [walkChainReaches, Bool.or_eq_true, beq_iff_eq, ih, List.mem_cons]
    constructor
    · rintro (rfl | h)
      · exact Or.inl rfl
      · exact Or.inr h
    · rintro (rfl | h)
      · exact Or.inl rfl
      · exact Or.inr h

theorem mem_load_foldl (loader : String → Except String (List ExportedItem))
    (pred : ExportedItem → Bool) (files : List String) :
    ∀ (acc : List ExportedItem) (e : ExportedItem),
      (e ∈ files.foldl (fun a file =>
          match loader file with
          | .error _ => a
          | .ok exports => a ++ exports.filter pred) acc)
        ↔ e ∈ acc ∨ ∃ file ∈ files, ∃ exps, loader file = .ok exps ∧ e ∈ exps.filter pred := by
  induction files with
  | nil =>
    intro acc e
    simp
  | cons file rest ih =>
    intro acc e
    rw [List.foldl_cons]
    rcases hl : loader file with msg | exps
    · simp only [hl]
      rw [ih acc e]
      constructor
      · rintro (h | ⟨f, hf, ex, hex, he⟩)
        · exact Or.inl h
        · exact Or.inr ⟨f, List.mem_cons_of_mem _ hf, ex, hex, he⟩
      · rintro (h | ⟨f, hf, ex, hex, he⟩)
        · exact Or.inl h
        · rcases List.mem_cons.mp hf with rfl | hf2
          · rw [hl] at hex
            exact absurd hex (by simp)
          · exact Or.inr ⟨f, hf2, ex, hex, he⟩
    · simp only [hl]
      rw [ih (acc ++ exps.filter pred) e]
      constructor
      · rintro (h | ⟨f, hf, ex, hex, he⟩)
        · rcases List.mem_append.mp h with h2 | h2
          · exact Or.inl h2
          · exact Or.inr ⟨file, List.mem_cons_self _ _, exps, hl, h2⟩
        · exact Or.inr ⟨f, List.mem_cons_of_mem _ hf, ex, hex, he⟩
      · rintro (h | ⟨f, hf, ex, hex, he⟩)
        · exact Or.inl (List.mem_append.mpr (Or.inl h))
        · rcases List.mem_cons.mp hf with rfl | hf2
          · rw [hl] at hex
            simp only [Except.ok.injEq] at hex
            exact Or.inl (List.mem_append.mpr (Or.inr (hex ▸ he)))
          · exact Or.inr ⟨f, hf2, ex, hex, he⟩

/-- C8: an exported item passes the Command (resp. Event) validity predicate
exactly when it is a function with a prototype, named with the suffix
`Command` (resp. `Event`), whose prototype chain reaches `BaseSlashCommand`
(resp. `BaseEventHandler`) at any depth (so transitive inheritance through an
intermediate class is recognized); consequently every item returned by
`discoverCommands` satisfies the predicate, and a class whose name merely
matches the convention but whose chain misses the base class is excluded. -/
theorem c8_validity_predicate_inheritance :
    (∀ e, isValidCommand e = true ↔
      ∃ nm hp ch, e = .func nm hp ch ∧ hp = true ∧ endsWithStr nm "Command" = true
        ∧ "BaseSlashCommand" ∈ ch)
    ∧ (∀ e, isValidEvent e = true ↔
      ∃ nm hp ch, e = .func nm hp ch ∧ hp = true ∧ endsWithStr nm "Event" = true
        ∧ "BaseEventHandler" ∈ ch)
    ∧ (∀ (fs : DiscoveryFS) (p : String) (e : ExportedItem),
        e ∈ discoverCommands fs p → isValidCommand e = true) := by
  refine ⟨?_, ?_, ?_⟩
  · intro e
    cases e with
    | func nm hp ch =>
      simp only [isValidCommand, Bool.and_eq_true, walkChainReaches_iff]
      constructor
      · rintro ⟨⟨h1, h2⟩, h3⟩
        exact ⟨nm, hp, ch, rfl, h1, h2, h3⟩
      · rintro ⟨nm2, hp2, ch2, heq, h1, h2, h3⟩
        cases heq
        exact ⟨⟨h1, h2⟩, h3⟩
    | plain =>
      simp only [isValidCommand]
      constructor
      · intro h
        exact absurd h (by simp)
      · rintro ⟨nm2, hp2, ch2, heq, h⟩
        exact absurd heq (by simp)
  · intro e
    cases e with
    | func nm hp ch =>
      simp only [isValidEvent, Bool.and_eq_true, walkChainReaches_iff]
      constructor
      · rintro ⟨⟨h1, h2⟩, h3⟩
        exact ⟨nm, hp, ch, rfl, h1, h2, h3⟩
      · rintro ⟨nm2, hp2, ch2, heq, h1, h2, h3⟩
        cases heq
        exact ⟨⟨h1, h2⟩, h3⟩
    | plain =>
      simp only [isValidEvent]
      constructor
      · intro h
        exact absurd h (by simp)
      · rintro ⟨nm2, hp2, ch2, heq, h⟩
        exact absurd heq (by simp)
  · intro fs p e he
    unfold discoverCommands at he
    rcases (mem_load_foldl fs.load isValidCommand _ [] e).mp he with h | ⟨f, hf, ex, hex, hmem⟩
    · exact absurd h (by simp)
    · exact (List.mem_filter.mp hmem).2

/-- Witness for C8: a class named `FooCommand` that does not extend
`BaseSlashCommand` fails the predicate even though its name matches, while
one extending it transitively through an intermediate class passes. -/
theorem c8_validity_predicate_inheritance_witness :
    ¬ isValidCommand (.func "FooCommand" true ["FooCommand", "SomethingElse"]) = true
    ∧ isValidCommand
        (.func "FooCommand" true ["FooCommand", "Intermediate", "BaseSlashCommand"]) = true := by
  constructor
  · intro h
    have hc := (c8_validity_predicate_inheritance.1 _).mp h
    rcases hc with ⟨nm, hp, ch, heq, _, _, hmem⟩
    cases heq
    simp at hmem
  · exact (c8_validity_predicate_inheritance.1 _).mpr
      ⟨"FooCommand", true, ["FooCommand", "Intermediate", "BaseSlashCommand"], rfl, rfl, rfl,
        by simp⟩

/-- C9: a discovery pass never propagates an exception: an unreadable
directory yields the empty result, and a file that fails to load is skipped
while every valid class exported by any other listed file still appears in
the result. -/
theorem c9_discovery_error_isolation :
    (∀ (fs : DiscoveryFS) (p : String) (msg : String),
      fs.listing = .error msg → discoverCommands fs p = [])
    ∧ (∀ (fs : DiscoveryFS) (p : String) (f : String) (exps : List ExportedItem)
        (e : ExportedItem),
      f ∈ getFilesInDirectory fs.listing p commandFileFilter →
      fs.load f = .ok exps → e ∈ exps → isValidCommand e = true →
      e ∈ discoverCommands fs p) := by
  constructor
  · intro fs p msg h
    unfold discoverCommands getFilesInDirectory
    rw [h]
    rfl
  · intro fs p f exps e hf hload hmem hvalid
    unfold discoverCommands
    exact (mem_load_foldl fs.load isValidCommand _ [] e).mpr
      (Or.inr ⟨f, hf, exps, hload, List.mem_filter.mpr ⟨hmem, hvalid⟩⟩)

/-- Witness for C9: with a two-file directory where the first file throws on
import, the valid command exported by the second file is still discovered;
and an unreadable directory gives the empty result. -/
theorem c9_discovery_error_isolation_witness :
    discoverCommands
      ⟨.error "EACCES: permission denied", fun _ => .ok []⟩ "/bot/src/commands" = []
    ∧ ExportedItem.func "PingCommand" true ["PingCommand", "BaseSlashCommand"]
        ∈ discoverCommands
          ⟨.ok [⟨"BrokenCommand.ts", true⟩, ⟨"PingCommand.ts", true⟩],
           fun f =>
             if f = "/bot/src/commands/PingCommand.ts" then
               .ok [.func "PingCommand" true ["PingCommand", "BaseSlashCommand"]]
             else .error "SyntaxError"⟩ "/bot/src/commands" := by
  constructor
  · exact c9_discovery_error_isolation.1 _ "/bot/src/commands" "EACCES: permission denied" rfl
  · exact c9_discovery_error_isolation.2 _ "/bot/src/commands"
      "/bot/src/commands/PingCommand.ts"
      [.func "PingCommand" true ["PingCommand", "BaseSlashCommand"]]
      (.func "PingCommand" true ["PingCommand", "BaseSlashCommand"])
      (by decide) rfl (by decide) (by decide)

/-! ## Helper lemma and theorem: duplicate command names (claim C10) -/

theorem registerCommands_foldl (cmds : List CommandDescriptor) :
    ∀ (table : List (String × CommandDescriptor)) (n : String),
      getEntry (cmds.foldl (fun t d =>
          match effectiveCommandName d with
          | .error _ => t
          | .ok m => setEntry t m d) table) n
        = match lastRegisteredWith n cmds with
          | some d => some d
          | none => getEntry table n := by
  induction cmds with
  | nil =>
    intro table n
    rfl
  | cons d rest ih =>
    intro table n
    rw [List.foldl_cons, ih]
    show _ = (match lastRegisteredWith n (d :: rest) with
      | some r => some r
      | none => getEntry table n)
    rw [lastRegisteredWith]
    rcases hlast : lastRegisteredWith n rest with _ | r
    · rcases heff : effectiveCommandName d with msg | m
      · rfl
      · by_cases hm : m = n
        · subst hm
          simp [getEntry_setEntry_self]
        · simp [if_neg hm, getEntry_setEntry_ne _ _ hm]
    · rfl

/-- C10: for every list of discovered command descriptors and every command
name, the registration table built by `registerCommands` maps the name to the
instance of the last descriptor (in processing order) whose effective name is
that name — each later insertion silently overwrites the earlier one — and
inbound routing resolves the name through that same table entry. -/
theorem c10_duplicate_names_last_wins (cmds : List CommandDescriptor) (n : String) :
    routeInbound (registerCommands cmds) n = lastRegisteredWith n cmds := by
  unfold routeInbound registerCommands
  rw [registerCommands_foldl cmds [] n]
  rcases hlast : lastRegisteredWith n cmds with _ | r
  · rfl
  · rfl

end RoboCord
